import Mathlib

/-!
Verification of the card layout and rendering pipeline of the
CollectibleCards repository (faction_templatecard_generator.py in its two
variants, and playingcard_generator.py), as a shallow embedding.

Conventions used throughout:
* Python integers are `ℤ` (or `ℕ` where the source value is a size/count);
  Python `//` on possibly-negative integers is `Int.fdiv`; `int()` applied to
  a nonnegative real value is a floor, and float arithmetic on the small
  constants involved is modeled by exact rational arithmetic.
* Python strings are `String`; the handful of string primitives the source
  uses (`str.lower`, `str.strip`, `str.split`, slicing, `int(str)`,
  `str.replace`, `re` character-class substitution) are modeled by the
  structurally recursive functions below, restricted to ASCII, which is the
  only alphabet the generators feed them.
* External effectful collaborators (Pillow drawing, the file system, font
  measurement, the global random generator) are made explicit: drawing
  becomes a trace of `Op` values, the file system an `FS` oracle, text
  measurement oracle functions, and the ambient RNG an explicit stream.
* A pandas row is an association list of (column name, stringified value);
  `row.get(k, d)` is `row_get`.

Namespace `FactionGen` embeds source/generators/faction_templatecard_generator.py,
namespace `ReleaseGen` embeds faction_templatecard_generator.py (release build),
namespace `PlayingCards` embeds source/generators/playingcard_generator.py.
Definitions shared by both generator files verbatim (sanitize, cover_fit,
noise_texture, ART_W/ART_H) live at top level.
-/

/-- ASCII lower-casing of one character, modeling Python str.lower on the
ASCII data the generators process. -/
def pyCharLower (c : Char) : Char :=
  if 65 ≤ c.toNat ∧ c.toNat ≤ 90 then Char.ofNat (c.toNat + 32) else c

/-- Python str.lower (ASCII fragment). -/
def pyLower (s : String) : String := String.mk (s.toList.map pyCharLower)

/-- Python str.strip() with no argument: drop whitespace from both ends. -/
def pyTrim (s : String) : String :=
  String.mk (((s.toList.dropWhile Char.isWhitespace).reverse.dropWhile Char.isWhitespace).reverse)

/-- Python s[:n] character slicing. -/
def pyTake (n : ℕ) (s : String) : String := String.mk (s.toList.take n)

/-- Python str.replace("-", "_") (single-character pattern). -/
def replaceDash (s : String) : String :=
  String.mk (s.toList.map (fun c => if c = '-' then '_' else c))

/-- Decimal digit test. -/
def isDigit (c : Char) : Bool := 48 ≤ c.toNat && c.toNat ≤ 57

/-- Value of a list of decimal digits. -/
def digitsToNat (l : List Char) : ℕ := l.foldl (fun acc c => 10 * acc + (c.toNat - 48)) 0

/-- After the first digit, Python int() accepts digits with single
underscores strictly between digits; returns the digits with underscores
removed, or none on a malformed tail. -/
def pyIntRest : List Char → Option (List Char)
  | [] => some []
  | '_' :: c :: cs => if isDigit c then (pyIntRest cs).map (fun ds => c :: ds) else none
  | ['_'] => none
  | c :: cs => if isDigit c then (pyIntRest cs).map (fun ds => c :: ds) else none

/-- Digit-sequence part of Python int(): at least one leading digit. -/
def parseDigits : List Char → Option ℕ
  | [] => none
  | c :: cs => if isDigit c then (pyIntRest cs).map (fun ds => digitsToNat (c :: ds)) else none

/-- Python int(str): optional surrounding whitespace, optional sign, decimal
digits with optional single grouping underscores; none models the ValueError
that the callers catch. -/
def pyInt (s : String) : Option ℤ :=
  match (pyTrim s).toList with
  | '+' :: rest => (parseDigits rest).map (fun n => (n : ℤ))
  | '-' :: rest => (parseDigits rest).map (fun n => -(n : ℤ))
  | rest => (parseDigits rest).map (fun n => (n : ℤ))

/-- re.search("(\d+)", s): the first maximal run of digits, or "" when there
is none (the callers use m.group(1) if m else ""). -/
def first_digit_run : List Char → String
  | [] => ""
  | c :: cs => if isDigit c then String.mk (c :: cs.takeWhile isDigit) else first_digit_run cs

/-- Worker for `splitOnChar`, accumulating the current field reversed. -/
def splitOnCharGo (sep : Char) : List Char → List Char → List String
  | [], acc => [String.mk acc.reverse]
  | c :: cs, acc =>
    if c = sep then String.mk acc.reverse :: splitOnCharGo sep cs []
    else splitOnCharGo sep cs (c :: acc)

/-- Python str.split(sep) for a one-character separator: fields between
separators, keeping empty fields (so "".split(sep) = [""]). -/
def splitOnChar (sep : Char) (s : String) : List String := splitOnCharGo sep s.toList []

/-- Worker for `pySplit`, accumulating the current word reversed. -/
def pySplitAux : List Char → List Char → List String
  | [], acc => if acc.isEmpty then [] else [String.mk acc.reverse]
  | c :: cs, acc =>
    if c.isWhitespace then
      if acc.isEmpty then pySplitAux cs []
      else String.mk acc.reverse :: pySplitAux cs []
    else pySplitAux cs (c :: acc)

/-- Python str.split() with no argument: maximal nonempty words between
whitespace runs, edge whitespace discarded. -/
def pySplit (s : String) : List String := pySplitAux s.toList []

/-- Worker for `sub_runs`: the Bool records whether we are inside a run of
replaced characters (re.sub replaces each maximal run by one `repl`). -/
def sub_runs_go (keep : Char → Bool) (repl : Char) : List Char → Bool → List Char
  | [], _ => []
  | c :: cs, inRun =>
    if keep c then c :: sub_runs_go keep repl cs false
    else if inRun then sub_runs_go keep repl cs true
    else repl :: sub_runs_go keep repl cs true

/-- re.sub("[^...]+", repl, s): replace each maximal run of characters not
satisfying `keep` by the single character `repl`. -/
def sub_runs (keep : Char → Bool) (repl : Char) (s : String) : String :=
  String.mk (sub_runs_go keep repl s.toList false)

/-- Python str.strip(x) for a one-character argument. -/
def strip_char (x : Char) (s : String) : String :=
  String.mk (((s.toList.dropWhile (· = x)).reverse.dropWhile (· = x)).reverse)

/-- Character class [a-z0-9] of the artwork slug regex. -/
def isLowerDigit (c : Char) : Bool := (97 ≤ c.toNat && c.toNat ≤ 122) || isDigit c

/-- Character class [a-zA-Z0-9] of the set-folder regex. -/
def isAlnumAscii (c : Char) : Bool :=
  (97 ≤ c.toNat && c.toNat ≤ 122) || (65 ≤ c.toNat && c.toNat ≤ 90) || isDigit c

/-- Space-joined rendering of an accumulated line of words; models the
string `cur` that the wrapping loops grow via (cur + " " + w).strip(),
which for whitespace-free nonempty words equals this join. -/
def joinWords : List String → String
  | [] => ""
  | [w] => w
  | w :: ws => w ++ " " ++ joinWords ws

/-- sanitize from both generator files (identical code): None becomes "",
and any value whose string form lower-cases to "nan" or "none" becomes "";
every other value keeps its string form. -/
def sanitize (val : Option String) : String :=
  let s := match val with
    | some v => v
    | none => ""
  if pyLower s = "nan" ∨ pyLower s = "none" then "" else s

/-- A pandas row: association list from column name to the stringified cell
value (a NaN cell is the string "nan", which is what str() produces). -/
abbrev RowT := List (String × String)

/-- row.get(key, default). -/
def row_get (row : RowT) (k d : String) : String := (row.lookup k).getD d

/-- Lookup in which later bindings shadow earlier ones, as in a Python dict
built left to right. -/
def lookupLast {β : Type} (kvs : List (String × β)) (k : String) : Option β :=
  kvs.reverse.lookup k

/-- An axis-aligned rectangle (x0, y0, x1, y1) as used for all card regions. -/
structure Rect where
  x0 : ℤ
  y0 : ℤ
  x1 : ℤ
  y1 : ℤ
deriving DecidableEq

/-- The six regions returned by compute_regions, in source order. -/
structure Regions where
  name_rect : Rect
  art_rect : Rect
  type_rect : Rect
  rules_rect : Rect
  stats_rect : Rect
  foot_rect : Rect
deriving DecidableEq

/-- A decoded raster image, abstracted to its pixel dimensions. -/
structure Img where
  w : ℕ
  h : ℕ
deriving DecidableEq

/-- File-system and image-decoding oracle: isfile, Image.open (none models a
raised decode error, which every caller catches), and glob.glob. -/
structure FS where
  isfile : String → Bool
  openImg : String → Option Img
  glob : String → List String

/-- One text draw: position and string (the font is determined by the
drawing site). -/
structure TextOp where
  x : ℤ
  y : ℤ
  s : String
deriving DecidableEq

/-- One drawing command of the card composer; rendering a card is modeled as
the ordered trace of these commands on the canvas. -/
inductive Op where
  | background
  | bgNoise (alpha : ℕ)
  | frame (faction_key : String)
  | plaque (r : Rect) (radius : ℤ)
  | pasteArt (x y : ℤ) (w h : ℕ)
  | artBevel (r : Rect)
  | text (x y : ℤ) (s : String)
  | orb (x y : ℤ)
  | badge (faction_key label : String)
  | rulesBlock (ability flavor : String)
deriving DecidableEq

/-- A built card: canvas size plus the trace of drawing commands. -/
structure Card where
  size : ℤ × ℤ
  ops : List Op

/-- Artwork content size pasted into the art box (both generator files). -/
def ART_W : ℕ := 645

/-- Artwork content height (both generator files). -/
def ART_H : ℕ := 339

/-- Crop box of cover_fit in image pixel coordinates. -/
structure CropBox where
  x0 : ℕ
  y0 : ℕ
  x1 : ℕ
  y1 : ℕ
deriving DecidableEq

/-- cover_fit from both generator files (identical code): the source image
of size (iw, ih) is cropped to this box and then resized to exactly
(target_w, target_h).  src_ratio > target_ratio (iw/ih > tw/th) is the exact
integer comparison tw*ih < iw*th; int() of the nonnegative products is ℕ
floor division; max(0, (iw-new_w)//2) coincides with truncating ℕ
subtraction followed by division.  The result models (crop box, size of the
resized output). -/
def cover_fit (iw ih target_w target_h : ℕ) : CropBox × (ℕ × ℕ) :=
  let c :=
    if target_w * ih < iw * target_h then
      let new_w := ih * target_w / target_h
      let x0 := (iw - new_w) / 2
      CropBox.mk x0 0 (x0 + new_w) ih
    else
      let new_h := iw * target_h / target_w
      let y0 := (ih - new_h) / 2
      CropBox.mk 0 y0 iw (y0 + new_h)
  (c, (target_w, target_h))

/-- A noise overlay: per-pixel grayscale values plus the constant alpha
channel it is merged with. -/
structure Tex where
  gray : List ℕ
  alpha : ℕ
deriving DecidableEq

/-- Modelled from the spec: Image.effect_noise is an external Pillow
primitive producing a per-pixel independent grayscale random value; the
ambient global random generator is made explicit as the stream `rng`,
consumed one value per pixel. -/
def effect_noise (size : ℕ × ℕ) (rng : ℕ → ℕ) : List ℕ :=
  (List.range (size.1 * size.2)).map (fun i => rng i % 256)

/-- noise_texture from both generator files (identical code): grayscale
noise merged with a constant alpha plane.  Note the signature: the only
parameters are size and alpha; no seed can be supplied, the randomness
comes from the ambient stream. -/
def noise_texture (size : ℕ × ℕ) (alpha : ℕ) (rng : ℕ → ℕ) : Tex :=
  { gray := effect_noise size rng, alpha := alpha }

/-- Worker emitting one centered stats row: successive texts advance x by
measured width plus spacing. -/
def row_texts_go (tl : ℕ → String → ℤ) (fsize : ℕ) (row_y spacing : ℤ) :
    ℤ → List String → List Op
  | _, [] => []
  | x, t :: ts => Op.text x row_y t :: row_texts_go tl fsize row_y spacing (x + tl fsize t + spacing) ts

/-- The centered labeled-fields row both stats drawers build: total width is
the sum of measured widths plus spacing between fields, start_x centers it in
the rect, row_y is the vertical midpoint minus 12. -/
def centered_row_ops (tl : ℕ → String → ℤ) (fsize : ℕ) (rect : Rect) (spacing : ℤ)
    (texts : List String) : List Op :=
  let widths := texts.map (tl fsize)
  let total_w := widths.sum + spacing * ((texts.length : ℤ) - 1)
  let start_x := Int.fdiv (rect.x0 + rect.x1 - total_w) 2
  let row_y := Int.fdiv (rect.y0 + rect.y1) 2 - 12
  row_texts_go tl fsize row_y spacing start_x texts

namespace PlayingCards

/-- Card width in pixels (playingcard_generator.py). -/
def CARD_W : ℚ := 730

/-- Card height in pixels. -/
def CARD_H : ℚ := 1024

/-- Horizontal padding for the pip set. -/
def PAD_X : ℚ := 45

/-- Vertical padding for the pip set. -/
def PAD_Y : ℚ := 50

/-- Extra top/bottom padding for pips. -/
def PIP_EXTRA_PAD : ℚ := 150

/-- Left edge of the pip area (SET_L in pip_grid_positions). -/
def SET_L : ℚ := PAD_X

/-- Right edge of the pip area. -/
def SET_R : ℚ := CARD_W - PAD_X

/-- Bottom edge of the pip area. -/
def SET_B : ℚ := PAD_Y + PIP_EXTRA_PAD

/-- Top edge of the pip area. -/
def SET_T : ℚ := CARD_H - PAD_Y - PIP_EXTRA_PAD

/-- lerp(a, b, t) = a + (b - a) * t. -/
def lerp (a b t : ℚ) : ℚ := a + (b - a) * t

/-- Row interpolation parameters [i/(rows-1) if rows>1 else 0.5 for i in
range(rows)]. -/
def rowTs (rows : ℕ) : List ℚ :=
  (List.range rows).map (fun i => if 1 < rows then (i : ℚ) / ((rows : ℚ) - 1) else 1/2)

/-- y_vals: evenly spaced row centers from SET_B to SET_T. -/
def yVals (rows : ℕ) : List ℚ := (rowTs rows).map (lerp SET_B SET_T)

/-- Even-rank grid: rows = n/2 rows, two columns at 30 percent and
70 percent, appended row by row. -/
def evenGrid (n : ℕ) : List (ℚ × ℚ) :=
  (yVals (n / 2)).flatMap (fun y => [(lerp SET_L SET_R (3/10), y), (lerp SET_L SET_R (7/10), y)])

/-- center_y: midpoints of consecutive row centers. -/
def centerYs (rows : ℕ) : List ℚ :=
  List.zipWith (fun a b => (a + b) / 2) (yVals rows) (yVals rows).tail

/-- Numeral branch of pip_grid_positions for n = int(rank), 4 ≤ n ≤ 10.
For odd n the source recurses as pip_grid_positions(str(n-1)); for
n ∈ {5,7,9} that call lands in this same numeral branch at the even rank
n-1, so the recursion is unrolled here to evenGrid (n-1). -/
def pipGridNum (n : ℕ) : List (ℚ × ℚ) :=
  if 4 ≤ n ∧ n ≤ 10 then
    if n % 2 = 0 then evenGrid n
    else
      let base := evenGrid (n - 1)
      let cys := centerYs ((n - 1) / 2)
      let extra :=
        if n = 5 then [(lerp SET_L SET_R (1/2), lerp SET_B SET_T (1/2))]
        else if n = 7 then [(lerp SET_L SET_R (1/2), cys.getD 0 0)]
        else if n = 9 then [(lerp SET_L SET_R (1/2), cys.getD 1 0)]
        else []
      base ++ extra
  else []

/-- pip_grid_positions(rank): pip center positions per rank string.  "A" and
the face ranks give the single centered glyph position; "2" and "3" are the
direct single-centered-column cases; numeral ranks 4..10 take the grid
branch; int(rank) is modeled by pyInt (a failed parse is unreachable for the
rank strings the generator uses). -/
def pip_grid_positions (rank : String) : List (ℚ × ℚ) :=
  if rank = "JOKER" then []
  else if rank = "A" then [(lerp SET_L SET_R (1/2), lerp SET_B SET_T (1/2))]
  else if rank = "J" ∨ rank = "Q" ∨ rank = "K" then
    [(lerp SET_L SET_R (1/2), lerp SET_B SET_T (1/2))]
  else if rank = "2" then (yVals 2).map (fun y => (lerp SET_L SET_R (1/2), y))
  else if rank = "3" then (yVals 3).map (fun y => (lerp SET_L SET_R (1/2), y))
  else
    match pyInt rank with
    | some n => pipGridNum n.toNat
    | none => []

end PlayingCards

namespace FactionGen

/-- Canvas width (source/generators variant). -/
def PX_W : ℤ := 750

/-- Canvas height (source/generators variant). -/
def PX_H : ℤ := 1024

/-- CSV column constant. -/
def COL_ROW_NUMBER : String := "Row Number"

/-- CSV column constant. -/
def COL_CARD_ID : String := "Card ID"

/-- CSV column constant. -/
def COL_NAME : String := "Name"

/-- CSV column constant. -/
def COL_FACTION : String := "Faction"

/-- CSV column constant. -/
def COL_TYPE : String := "Type"

/-- CSV column constant. -/
def COL_SUBTYPE : String := "Subtype"

/-- CSV column constant. -/
def COL_COST : String := "Cost"

/-- CSV column constant. -/
def COL_POWER : String := "Power"

/-- CSV column constant. -/
def COL_TOUGHNESS : String := "Toughness"

/-- CSV column constant. -/
def COL_ABILITIES : String := "Abilities"

/-- CSV column constant. -/
def COL_FLAVOR : String := "Flavor Text"

/-- CSV column constant. -/
def COL_SET_EDITION : String := "Set/Edition"

/-- compute_regions (source/generators variant): pure function of the
canvas constants only; no row data enters. -/
def compute_regions : Regions :=
  let ART_INSET : ℤ := 32
  let name_rect : Rect := ⟨ART_INSET, 20, PX_W - ART_INSET, 100⟩
  let art_rect : Rect := ⟨ART_INSET + 10, name_rect.y1 + 5, PX_W - ART_INSET - 10, name_rect.y1 + 365⟩
  let type_rect : Rect := ⟨ART_INSET, art_rect.y1 + 6, PX_W - ART_INSET, art_rect.y1 + 54⟩
  let stats_rect : Rect := ⟨PX_W / 2 - 180, PX_H - 115, PX_W / 2 + 180, PX_H - 75⟩
  let foot_rect : Rect := ⟨ART_INSET, PX_H - 70, PX_W - ART_INSET, PX_H - 10⟩
  let rules_rect : Rect := ⟨ART_INSET, type_rect.y1 + 5, PX_W - ART_INSET, stats_rect.y0 - 5⟩
  ⟨name_rect, art_rect, type_rect, rules_rect, stats_rect, foot_rect⟩

/-- The three text draws of draw_footer (source/generators variant); the
raised footer plaque drawn before them is not recorded here. -/
structure FooterLayout where
  leftOp : TextOp
  ordinalOp : TextOp
  cardIdOp : TextOp
deriving DecidableEq

/-- draw_footer (source/generators variant, lines 414-445): set/edition text
at the left edge plus 20, then the ordinal "(index+1)/total" and the card ID
stacked at the right, both right-aligned at x_right = foot_rect.x1 - 10.
`tb size s` models d.textbbox((0,0), s, font_of_size) as (width, height);
the footer font size is 22. -/
def draw_footer (tb : ℕ → String → ℤ × ℤ) (foot_rect : Rect) (row : RowT)
    (index : ℕ) (total_cards : Option ℤ) : FooterLayout :=
  let left := sanitize (some (row_get row COL_SET_EDITION ""))
  let lh := (tb 22 left).2
  let card_id := sanitize (some (row_get row COL_CARD_ID ""))
  let ordStr := toString ((index : ℤ) + 1) ++ "/" ++ toString (total_cards.getD 1)
  let tw_id := (tb 22 card_id).1
  let th_id := (tb 22 card_id).2
  let tw_ord := (tb 22 ordStr).1
  let th_ord := (tb 22 ordStr).2
  let vertical_pad : ℤ := 8
  let right_pad : ℤ := 10
  let between_pad : ℤ := 2
  let total_h := th_id + th_ord + vertical_pad
  let top_y := Int.fdiv (foot_rect.y0 + foot_rect.y1 - total_h) 2
  let x_right := foot_rect.x1 - right_pad
  { leftOp := ⟨foot_rect.x0 + 20, Int.fdiv (foot_rect.y0 + foot_rect.y1 - lh) 2, left⟩
    ordinalOp := ⟨x_right - tw_ord, top_y, ordStr⟩
    cardIdOp := ⟨x_right - tw_id, top_y + th_ord + between_pad, card_id⟩ }

/-- The shrink-to-fit loop of draw_rules_flavor_centered (lines 263-269),
abstracted over the text measurement: `measure a f` is measure(a_sz, f_sz),
`available` is rules_rect[3] - rules_rect[1].  One unfolding per loop
iteration: stop when the measured height fits or both sizes are at their
minimums, otherwise decrement the ability size while above min_ability, then
the flavor size. -/
def fit_loop (measure : ℕ → ℕ → ℤ) (available : ℤ) (min_ability min_flavor : ℕ)
    (a f : ℕ) : ℕ × ℕ :=
  if measure a f ≤ available ∨ (a ≤ min_ability ∧ f ≤ min_flavor) then (a, f)
  else if min_ability < a then fit_loop measure available min_ability min_flavor (a - 1) f
  else if min_flavor < f then fit_loop measure available min_ability min_flavor a (f - 1)
  else (a, f)
termination_by a + f
decreasing_by
  · omega
  · omega

/-- The (ability_size, flavor_size) pair draw_rules_flavor_centered settles
on: the loop started from the maximums (25, 24) with minimums (18, 18). -/
def draw_rules_flavor_sizes (measure : ℕ → ℕ → ℤ) (available : ℤ) : ℕ × ℕ :=
  fit_loop measure available 18 18 25 24

/-- wrap_left (lines 233-243): greedy word wrap.  A line is represented by
its list of words; the string the source tests and emits is `joinWords` of
that list, which equals (cur + " " + w).strip() because split() words are
nonempty and whitespace-free.  `tl` models d.textlength for the font in
use. -/
def wrap_left_go (tl : String → ℤ) (max_w : ℤ) : List String → List String → List (List String)
  | [], cur => if cur = [] then [] else [cur]
  | w :: ws, cur =>
    if tl (joinWords (cur ++ [w])) ≤ max_w then wrap_left_go tl max_w ws (cur ++ [w])
    else if cur = [] then wrap_left_go tl max_w ws [w]
    else cur :: wrap_left_go tl max_w ws [w]

/-- wrap_left(txt, font, max_w): split into words, wrap greedily, return the
rendered lines. -/
def wrap_left (tl : String → ℤ) (max_w : ℤ) (txt : String) : List String :=
  (wrap_left_go tl max_w (pySplit txt) []).map joinWords

/-- The wrapping loop of draw_center_wrapped_text (lines 200-212): identical
to wrap_left_go except that an exhausted current line is appended even when
empty (no `if cur` guard before the append). -/
def center_wrap_go (tl : String → ℤ) (max_w : ℤ) : List String → List String → List (List String)
  | [], cur => if cur = [] then [] else [cur]
  | w :: ws, cur =>
    if tl (joinWords (cur ++ [w])) ≤ max_w then center_wrap_go tl max_w ws (cur ++ [w])
    else cur :: center_wrap_go tl max_w ws [w]

/-- The lines draw_center_wrapped_text renders for a text. -/
def draw_center_wrapped_lines (tl : String → ℤ) (max_w : ℤ) (txt : String) : List String :=
  (center_wrap_go tl max_w (pySplit txt) []).map joinWords

/-- collection_abbr: abbreviation mapping for artwork folders. -/
def collection_abbr (set_folder : String) : String :=
  let key := pyLower set_folder
  if key = "srp_bitterroot" then "srp_br"
  else if key = "srp_player" then "srp_pl"
  else key

/-- The set folder of locate_art: re.sub("[^a-zA-Z0-9]+", "_", set_name)
stripped of "_" and lower-cased. -/
def set_folder_of (set_name : String) : String :=
  pyLower (strip_char '_' (sub_runs isAlnumAscii '_' set_name))

/-- The single artwork path locate_art (source/generators variant) checks:
source/art/{abbr}/{abbr}_{row_number}.png. -/
def art_path (row : RowT) : String :=
  let set_name := sanitize (some (row_get row COL_SET_EDITION ""))
  let abbr := collection_abbr (set_folder_of set_name)
  "source/art/" ++ abbr ++ "/" ++ abbr ++ "_" ++ row_get row COL_ROW_NUMBER "" ++ ".png"

/-- locate_art (source/generators variant): open the single conventional
path if it is a file; a failed decode is caught and yields none. -/
def locate_art (fs : FS) (row : RowT) : Option Img :=
  if fs.isfile (art_path row) then fs.openImg (art_path row) else none

/-- draw_card_art: paste the cover-fitted artwork if located, then always
draw the art bevel on top; absence of artwork skips only the paste. -/
def draw_card_art (fs : FS) (art_rect : Rect) (row : RowT) : List Op :=
  (match locate_art fs row with
   | some _ => [Op.pasteArt (art_rect.x0 + 11) (art_rect.y0 + 11) ART_W ART_H]
   | none => []) ++ [Op.artBevel art_rect]

/-- draw_card_stats (source/generators variant, lines 540-559): Power and
Toughness are parsed with int() after sanitize (defaults "2" and "1" for
missing columns); a parse failure is caught and replaced by 0; the two
labeled numerals are drawn as one centered row with spacing 20, font 24. -/
def draw_card_stats (tl : ℕ → String → ℤ) (stats_rect : Rect) (row : RowT) : List Op :=
  let power : ℤ := (pyInt (sanitize (some (row_get row COL_POWER "2")))).getD 0
  let toughness : ℤ := (pyInt (sanitize (some (row_get row COL_TOUGHNESS "1")))).getD 0
  let stats_texts := ["POW: " ++ toString power, "DEF: " ++ toString toughness]
  centered_row_ops tl 24 stats_rect 20 stats_texts

end FactionGen

namespace ReleaseGen

/-- Canvas width (release variant). -/
def PX_W : ℤ := 750

/-- Canvas height (release variant). -/
def PX_H : ℤ := 1050

/-- field(row, *aliases) (release variant): first pass returns the first
alias present with a non-blank value; second pass repeats the search through
a lower-cased key map (later duplicate keys shadowing earlier ones, as in
the dict comprehension); otherwise "". -/
def field (row : RowT) (aliases : List String) : String :=
  match aliases.findSome? (fun a =>
      match row.lookup a with
      | some v => if pyTrim v ≠ "" then some v else none
      | none => none) with
  | some v => v
  | none =>
    match aliases.findSome? (fun a =>
        match lookupLast (row.map (fun kv => (pyLower kv.1, kv.1))) (pyLower a) with
        | some k =>
          match row.lookup k with
          | some v => if pyTrim v ≠ "" then some v else none
          | none => none
        | none => none) with
    | some v => v
    | none => ""

/-- compute_regions (release variant). -/
def compute_regions : Regions :=
  let ART_INSET : ℤ := 32
  let name_rect : Rect := ⟨ART_INSET, 50, PX_W - ART_INSET, 127⟩
  let art_rect : Rect := ⟨ART_INSET + 10, name_rect.y1 + 10, PX_W - ART_INSET - 10, name_rect.y1 + 370⟩
  let type_rect : Rect := ⟨ART_INSET, art_rect.y1 + 12, PX_W - ART_INSET, art_rect.y1 + 62⟩
  let stats_rect : Rect := ⟨PX_W / 2 - 180, PX_H - 145, PX_W / 2 + 180, PX_H - 95⟩
  let foot_rect : Rect := ⟨ART_INSET, PX_H - 80, PX_W - ART_INSET, PX_H - 10⟩
  let rules_rect : Rect := ⟨ART_INSET, type_rect.y1 + 10, PX_W - ART_INSET, stats_rect.y0 - 10⟩
  ⟨name_rect, art_rect, type_rect, rules_rect, stats_rect, foot_rect⟩

/-- The primary artwork path of locate_art (release variant):
source/art/bitterrootcollection/{card_id.lower().replace("-","_")}.png. -/
def primary_path (row : RowT) : String :=
  "source/art/bitterrootcollection/" ++ replaceDash (pyLower (row_get row "Card ID" "")) ++ ".png"

/-- slugified name used by locate_art:
re.sub("[^a-z0-9]+", "-", name.lower()).strip("-"). -/
def slugify (name : String) : String :=
  strip_char '-' (sub_runs isLowerDigit '-' (pyLower name))

/-- The fallback candidate list of locate_art (release variant): the
explicit Artwork field if non-blank, then the glob matches by card ID, then
the glob matches by slugified name. -/
def art_candidates (fs : FS) (row : RowT) : List String :=
  let art_hint := sanitize (some (row_get row "Artwork" ""))
  let card_id := replaceDash (pyLower (row_get row "Card ID" ""))
  let slug := slugify (sanitize (some (row_get row "Name" "")))
  (if art_hint ≠ "" then [art_hint] else [])
    ++ (if card_id ≠ "" then fs.glob ("art/" ++ card_id ++ ".*") else [])
    ++ (if slug ≠ "" then fs.glob ("art/" ++ slug ++ ".*") else [])

/-- The candidate loop of locate_art: the first candidate that is a file and
decodes wins; decode failures continue with the next candidate. -/
def first_openable (fs : FS) : List String → Option Img
  | [] => none
  | p :: ps =>
    if fs.isfile p then
      match fs.openImg p with
      | some img => some img
      | none => first_openable fs ps
    else first_openable fs ps

/-- locate_art (release variant, lines 418-448): try the primary path (a
decode failure there falls through), then the fallback candidates; none when
everything is missing or fails to decode. -/
def locate_art (fs : FS) (row : RowT) : Option Img :=
  let primary := if fs.isfile (primary_path row) then fs.openImg (primary_path row) else none
  match primary with
  | some img => some img
  | none => first_openable fs (art_candidates fs row)

/-- Background stage of build_card: vignette gradient plus noise alpha 28. -/
def background_ops : List Op := [Op.background, Op.bgNoise 28]

/-- Frame stage: faction gradient fill with noise (alpha 48 only for the
special faction), outlines collapsed into the frame command. -/
def frame_ops (faction_key : String) : List Op :=
  [Op.frame faction_key, Op.bgNoise (if faction_key ≠ "special" then 34 else 48)]

/-- The five raised plaques in source order with their radii. -/
def plaques_ops (R : Regions) : List Op :=
  [Op.plaque R.name_rect 12, Op.plaque R.type_rect 10, Op.plaque R.rules_rect 16,
   Op.plaque R.stats_rect 14, Op.plaque R.foot_rect 10]

/-- Artwork stage of build_card: paste the cover-fitted artwork at
(x0+11, y0+11) when located, then always the art bevel on top. -/
def art_ops (fs : FS) (R : Regions) (row : RowT) : List Op :=
  (match locate_art fs row with
   | some _ => [Op.pasteArt (R.art_rect.x0 + 11) (R.art_rect.y0 + 11) ART_W ART_H]
   | none => []) ++ [Op.artBevel R.art_rect]

/-- The header title string: sanitize(row.get("Name",""))[:40]. -/
def header_name_text (row : RowT) : String :=
  pyTake 40 (sanitize (some (row_get row "Name" "")))

/-- Header title stage: the name drawn at x0+20, vertically centered via the
measured text height at font size 34. -/
def header_ops (tb : ℕ → String → ℤ × ℤ) (R : Regions) (row : RowT) : List Op :=
  let nh := (tb 34 (header_name_text row)).2
  [Op.text (R.name_rect.x0 + 20) (Int.fdiv (R.name_rect.y0 + R.name_rect.y1 - nh) 2)
    (header_name_text row)]

/-- parse_cost_number: the first run of digits of the sanitized resource
cost, or "". -/
def parse_cost_number (resource_cost : String) : String :=
  first_digit_run (sanitize (some resource_cost)).toList

/-- place_orb_number_left_centered: the orb (if present) sized to 80 percent
of the plaque height at the right, and the numeric cost text tight to its
left, or right-aligned alone when there is no orb. -/
def place_orb_number_ops (tl : ℕ → String → ℤ) (tb : ℕ → String → ℤ × ℤ)
    (name_rect : Rect) (orb_img : Option Img) (cost_num : String) : List Op :=
  let plaque_h := name_rect.y1 - name_rect.y0
  let target := Int.fdiv (4 * plaque_h) 5
  let x := name_rect.x1 - target - 10
  let y := name_rect.y0 + Int.fdiv (plaque_h - target) 2
  (match orb_img with
   | some _ => [Op.orb x y]
   | none => [])
  ++ (let cost := pyTrim cost_num
      if cost ≠ "" then
        let fsize := (Int.fdiv (11 * target) 20).toNat
        let tw := tl fsize cost
        let th := (tb fsize "Hg").2
        let txty :=
          match orb_img with
          | none => (name_rect.x1 - 20 - tw, Int.fdiv (name_rect.y0 + name_rect.y1 - th) 2)
          | some _ => (x - tw - 10, y + Int.fdiv (target - th) 2)
        [Op.text txty.1 txty.2 cost]
      else [])

/-- Cost stage of build_card: skipped entirely for special cards, otherwise
the orb/number placement for row.get("Resource Cost", row.get("Cost","")). -/
def cost_ops (tl : ℕ → String → ℤ) (tb : ℕ → String → ℤ × ℤ) (R : Regions) (row : RowT)
    (orb_img : Option Img) (special_no_cost : Bool) : List Op :=
  if special_no_cost then []
  else
    place_orb_number_ops tl tb R.name_rect orb_img
      (parse_cost_number (match row.lookup "Resource Cost" with
        | some v => v
        | none => row_get row "Cost" ""))

/-- Type-line stage: "{Type} - {Subtype}" measured in full at size 28,
truncated to 60 characters when drawn. -/
def type_ops (tb : ℕ → String → ℤ × ℤ) (R : Regions) (row : RowT) : List Op :=
  let type_str := sanitize (some (row_get row "Type" "")) ++ " - "
    ++ sanitize (some (row_get row "Subtype" ""))
  let th := (tb 28 type_str).2
  [Op.text (R.type_rect.x0 + 20) (Int.fdiv (R.type_rect.y0 + R.type_rect.y1 - th) 2)
    (pyTake 60 type_str)]

/-- Badge stage: the fixed-width faction badge at the right of the type
plaque (its internal gradient, outlines and label layout are collapsed into
the badge command). -/
def badge_ops (faction_key label : String) : List Op := [Op.badge faction_key label]

/-- One "K: V" part of the Stats string: key is the text before the first
colon, stripped and lower-cased; the value int-parses the text between the
first and second colon; a missing colon models the IndexError the except
catches. -/
def parse_stat_part (p : String) : Option (String × ℤ) :=
  match splitOnChar ':' p with
  | [] => none
  | [_] => none
  | k :: v :: _ => (pyInt v).map (fun n => (pyLower (pyTrim k), n))

/-- The dict comprehension of the stats row: "/"-separated parts, each
stripped, each parsed; any failure fails the whole comprehension (the
enclosing try). -/
def stats_kvs (row : RowT) : Option (List (String × ℤ)) :=
  ((splitOnChar '/' (sanitize (some (row_get row "Stats" "")))).map pyTrim).mapM parse_stat_part

/-- (hp, atk, def) of the stats row: per-key defaults 10, 2, 1 on a parsed
dict; the fallback triple (10, 2, 1) when the comprehension raised. -/
def release_stats_vals (row : RowT) : ℤ × ℤ × ℤ :=
  match stats_kvs row with
  | none => (10, 2, 1)
  | some kvs =>
    ((lookupLast kvs "hp").getD 10, (lookupLast kvs "atk").getD 2, (lookupLast kvs "def").getD 1)

/-- The three labeled stats texts. -/
def release_stats_texts (row : RowT) : List String :=
  let v := release_stats_vals row
  ["HP: " ++ toString v.1, "ATK: " ++ toString v.2.1, "DEF: " ++ toString v.2.2]

/-- Stats stage of build_card: one centered row, spacing 10, font 24. -/
def stats_ops (tl : ℕ → String → ℤ) (R : Regions) (row : RowT) : List Op :=
  centered_row_ops tl 24 R.stats_rect 10 (release_stats_texts row)

/-- draw_footer (release variant, lines 372-402): footer plaque, set/edition
resolved through field aliases at the left, then the ordinal
"(index+1)/total" above the card ID, both right-aligned at x1 - 20 with a
6-pixel gap. -/
def draw_footer (tb : ℕ → String → ℤ × ℤ) (foot_rect : Rect) (row : RowT)
    (index : ℕ) (total_cards : Option ℤ) : List Op :=
  let left := sanitize (some (field row
    ["Set/Edition", "Set", "Edition", "Collection", "Collection/Edition", "Set Name"]))
  let lh := (tb 22 left).2
  let card_id := sanitize (some (field row
    ["Card ID", "CardID", "ID", "Card_Id", "Card Number"]))
  let ordStr := toString ((index : ℤ) + 1) ++ "/" ++ toString (total_cards.getD 1)
  let tw_id := (tb 22 card_id).1
  let th_id := (tb 22 card_id).2
  let tw_ord := (tb 22 ordStr).1
  let th_ord := (tb 22 ordStr).2
  let id_ordinal_gap : ℤ := 6
  let total_h := th_id + th_ord + id_ordinal_gap
  let top_y := Int.fdiv (foot_rect.y0 + foot_rect.y1 - total_h) 2
  let x_right := foot_rect.x1 - 20
  [Op.plaque foot_rect 10,
   Op.text (foot_rect.x0 + 20) (Int.fdiv (foot_rect.y0 + foot_rect.y1 - lh) 2) left,
   Op.text (x_right - tw_ord) top_y ordStr,
   Op.text (x_right - tw_id) (top_y + th_ord + id_ordinal_gap) card_id]

/-- Rules/flavor stage of build_card: draw_rules_flavor_centered invoked on
the sanitized Abilities and Flavor Text columns (its internal shrink-to-fit
and wrapping are verified separately on fit_loop and wrap_left). -/
def rules_ops (row : RowT) : List Op :=
  [Op.rulesBlock (sanitize (some (row_get row "Abilities" "")))
    (sanitize (some (row_get row "Flavor Text" "")))]

/-- build_card (release variant, lines 458-570): the fixed-size canvas plus
the ordered trace of all drawing stages.  env_total models
os.environ.get("SURV_TOTAL", "1") and rowName models row.name, used only as
fallbacks for total_cards and row_index. -/
def build_card (tl : ℕ → String → ℤ) (tb : ℕ → String → ℤ × ℤ) (fs : FS)
    (env_total : Option String) (row : RowT) (faction_key : String) (orb_img : Option Img)
    (faction_label : String) (special_no_cost : Bool) (row_index : Option ℕ)
    (rowName : Option ℕ) (total_cards : Option ℤ) : Card :=
  let R := compute_regions
  let totalc : ℤ :=
    match total_cards with
    | some t => t
    | none => (pyInt (env_total.getD "1")).getD 1
  { size := (PX_W, PX_H)
    ops := background_ops ++ frame_ops faction_key ++ plaques_ops R
      ++ art_ops fs R row ++ header_ops tb R row
      ++ cost_ops tl tb R row orb_img special_no_cost
      ++ type_ops tb R row ++ badge_ops faction_key faction_label
      ++ stats_ops tl R row
      ++ draw_footer tb R.foot_rect row (row_index.getD (rowName.getD 0)) (some totalc)
      ++ rules_ops row }

end ReleaseGen

/-- C6: compute_regions is a pure function of the fixed canvas constants
(it takes no row data at all), and in both generator variants every one of
the six regions is non-degenerate, the artwork box lies strictly inside the
canvas interior, the rules box's top edge equals the type box's bottom edge
plus the fixed gap (5 in the source/generators variant, 10 in the release
variant), and the rules box's bottom edge equals the stats box's top edge
minus the same fixed gap; in particular the derived rules-region height is
nonnegative. -/
theorem compute_regions_spec :
    (let R := FactionGen.compute_regions
     (R.name_rect.x0 < R.name_rect.x1 ∧ R.name_rect.y0 < R.name_rect.y1)
     ∧ (R.art_rect.x0 < R.art_rect.x1 ∧ R.art_rect.y0 < R.art_rect.y1)
     ∧ (R.type_rect.x0 < R.type_rect.x1 ∧ R.type_rect.y0 < R.type_rect.y1)
     ∧ (R.rules_rect.x0 < R.rules_rect.x1 ∧ R.rules_rect.y0 < R.rules_rect.y1)
     ∧ (R.stats_rect.x0 < R.stats_rect.x1 ∧ R.stats_rect.y0 < R.stats_rect.y1)
     ∧ (R.foot_rect.x0 < R.foot_rect.x1 ∧ R.foot_rect.y0 < R.foot_rect.y1)
     ∧ (0 < R.art_rect.x0 ∧ 0 < R.art_rect.y0
        ∧ R.art_rect.x1 < FactionGen.PX_W ∧ R.art_rect.y1 < FactionGen.PX_H)
     ∧ R.rules_rect.y0 = R.type_rect.y1 + 5
     ∧ R.rules_rect.y1 = R.stats_rect.y0 - 5
     ∧ 0 ≤ R.rules_rect.y1 - R.rules_rect.y0)
    ∧ (let R := ReleaseGen.compute_regions
       (R.name_rect.x0 < R.name_rect.x1 ∧ R.name_rect.y0 < R.name_rect.y1)
       ∧ (R.art_rect.x0 < R.art_rect.x1 ∧ R.art_rect.y0 < R.art_rect.y1)
       ∧ (R.type_rect.x0 < R.type_rect.x1 ∧ R.type_rect.y0 < R.type_rect.y1)
       ∧ (R.rules_rect.x0 < R.rules_rect.x1 ∧ R.rules_rect.y0 < R.rules_rect.y1)
       ∧ (R.stats_rect.x0 < R.stats_rect.x1 ∧ R.stats_rect.y0 < R.stats_rect.y1)
       ∧ (R.foot_rect.x0 < R.foot_rect.x1 ∧ R.foot_rect.y0 < R.foot_rect.y1)
       ∧ (0 < R.art_rect.x0 ∧ 0 < R.art_rect.y0
          ∧ R.art_rect.x1 < ReleaseGen.PX_W ∧ R.art_rect.y1 < ReleaseGen.PX_H)
       ∧ R.rules_rect.y0 = R.type_rect.y1 + 10
       ∧ R.rules_rect.y1 = R.stats_rect.y0 - 10
       ∧ 0 ≤ R.rules_rect.y1 - R.rules_rect.y0) := by
  decide

/-- C9 counterexample: noise_texture cannot be given a seed at all — its
only parameters are size and alpha, and its output depends on the ambient
global RNG stream: two invocations with identical size and alpha (and hence
with everything the caller can possibly fix held equal) still produce
different textures when the ambient RNG state differs. -/
theorem noise_texture_not_seed_deterministic :
    noise_texture (2, 2) 35 (fun _ => 0) ≠ noise_texture (2, 2) 35 (fun _ => 1) := by
  decide

/-- C9 (amended): noise_texture has no seed parameter; making the ambient
global RNG explicit as a stream, it is deterministic with respect to that
stream: two invocations with the same size and alpha whose ambient RNG
streams agree on the consumed prefix (one value per pixel) produce
pixel-identical textures. -/
theorem noise_texture_deterministic_in_rng (size : ℕ × ℕ) (alpha : ℕ) (rng rng' : ℕ → ℕ)
    (h : ∀ i, i < size.1 * size.2 → rng i = rng' i) :
    noise_texture size alpha rng = noise_texture size alpha rng' := by
  unfold noise_texture effect_noise
  refine congrArg (fun g => Tex.mk g alpha) ?_
  refine List.map_congr_left ?_
  intro i hi
  rw [h i (List.mem_range.mp hi)]

/-- C9 witness: the deterministic-in-rng theorem applied at size (2,2),
alpha 35, and two streams that agree on the four consumed values. -/
theorem noise_texture_deterministic_in_rng_witness :
    (∀ i, i < (2, 2).1 * (2, 2).2 → (fun j => j) i = (fun j => if j < 4 then j else 99) i)
    ∧ noise_texture (2, 2) 35 (fun j => j)
        = noise_texture (2, 2) 35 (fun j => if j < 4 then j else 99) :=
  ⟨by decide, noise_texture_deterministic_in_rng (2, 2) 35 _ _ (by decide)⟩

/-- C10: sanitize returns "" for every value whose string form lower-cases
to exactly "nan" or "none" (including the literal texts "None", "NaN",
"NONE" supplied as genuine field content, and the Python None value itself),
and returns the string form unchanged for every other value; consequently a
row whose Name field is literally the text "None" renders a card whose
header name text is empty. -/
theorem sanitize_spec (v : String) (row : RowT) (hrow : row_get row "Name" "" = "None") :
    ((pyLower v = "nan" ∨ pyLower v = "none") → sanitize (some v) = "")
    ∧ (¬ (pyLower v = "nan" ∨ pyLower v = "none") → sanitize (some v) = v)
    ∧ sanitize none = ""
    ∧ sanitize (some "None") = "" ∧ sanitize (some "NaN") = "" ∧ sanitize (some "NONE") = ""
    ∧ ReleaseGen.header_name_text row = ""
    ∧ (∀ (tlq : ℕ → String → ℤ) (tbq : ℕ → String → ℤ × ℤ) (fsq : FS)
        (envq : Option String) (fk : String) (orb : Option Img) (lbl : String)
        (sp : Bool) (ri rn : Option ℕ) (tc : Option ℤ), ∃ y : ℤ,
        Op.text (ReleaseGen.compute_regions.name_rect.x0 + 20) y "" ∈
          (ReleaseGen.build_card tlq tbq fsq envq row fk orb lbl sp ri rn tc).ops) := by
  have hname : ReleaseGen.header_name_text row = "" := by
    rw [ReleaseGen.header_name_text, hrow]
    decide
  refine ⟨fun h => ?_, fun h => ?_, by decide, by decide, by decide, by decide, hname, ?_⟩
  · simp only [sanitize, if_pos h]
  · simp only [sanitize, if_neg h]
  · intro tlq tbq fsq envq fk orb lbl sp ri rn tc
    refine ⟨Int.fdiv (ReleaseGen.compute_regions.name_rect.y0
      + ReleaseGen.compute_regions.name_rect.y1 - (tbq 34 "").2) 2, ?_⟩
    simp [ReleaseGen.build_card, ReleaseGen.header_ops, hname]

/-- C10 witness: the sanitize specification applied to the value "abc" and
a concrete row whose Name cell is the literal text "None". -/
theorem sanitize_spec_witness :
    row_get [("Name", "None")] "Name" "" = "None"
    ∧ (((pyLower "abc" = "nan" ∨ pyLower "abc" = "none") → sanitize (some "abc") = "")
      ∧ (¬ (pyLower "abc" = "nan" ∨ pyLower "abc" = "none") → sanitize (some "abc") = "abc")
      ∧ sanitize none = ""
      ∧ sanitize (some "None") = "" ∧ sanitize (some "NaN") = "" ∧ sanitize (some "NONE") = ""
      ∧ ReleaseGen.header_name_text [("Name", "None")] = ""
      ∧ (∀ (tlq : ℕ → String → ℤ) (tbq : ℕ → String → ℤ × ℤ) (fsq : FS)
          (envq : Option String) (fk : String) (orb : Option Img) (lbl : String)
          (sp : Bool) (ri rn : Option ℕ) (tc : Option ℤ), ∃ y : ℤ,
          Op.text (ReleaseGen.compute_regions.name_rect.x0 + 20) y "" ∈
            (ReleaseGen.build_card tlq tbq fsq envq [("Name", "None")] fk orb lbl sp ri rn
              tc).ops)) :=
  ⟨by decide, sanitize_spec "abc" [("Name", "None")] (by decide)⟩

/-- C3 counterexample: at a concrete row, footer rect, index and total, the
card ID is drawn strictly below the ordinal in both variants (its y is
larger), so the card ID is not rendered above the ordinal as the claim
states.  In the source/generators variant this is read off the footer
layout; in the release variant the third trace command is the ordinal
"1/30" at y = 982 and the fourth is the card ID at y = 1008. -/
theorem draw_footer_id_not_above :
    (FactionGen.draw_footer (fun _ _ => (9, 20)) ⟨32, 954, 718, 1014⟩
        [("Set/Edition", "SRP Bitterroot"), ("Card ID", "SRP-BR-001-U")] 0
        (some 30)).ordinalOp.y
      < (FactionGen.draw_footer (fun _ _ => (9, 20)) ⟨32, 954, 718, 1014⟩
        [("Set/Edition", "SRP Bitterroot"), ("Card ID", "SRP-BR-001-U")] 0
        (some 30)).cardIdOp.y
    ∧ ¬ ((FactionGen.draw_footer (fun _ _ => (9, 20)) ⟨32, 954, 718, 1014⟩
        [("Set/Edition", "SRP Bitterroot"), ("Card ID", "SRP-BR-001-U")] 0
        (some 30)).cardIdOp.y
      < (FactionGen.draw_footer (fun _ _ => (9, 20)) ⟨32, 954, 718, 1014⟩
        [("Set/Edition", "SRP Bitterroot"), ("Card ID", "SRP-BR-001-U")] 0
        (some 30)).ordinalOp.y)
    ∧ (ReleaseGen.draw_footer (fun _ _ => (9, 20)) ⟨32, 970, 718, 1040⟩
        [("Set/Edition", "SRP Bitterroot"), ("Card ID", "SRP-BR-001-U")] 0 (some 30))[2]?
        = some (Op.text 689 982 "1/30")
    ∧ (ReleaseGen.draw_footer (fun _ _ => (9, 20)) ⟨32, 970, 718, 1040⟩
        [("Set/Edition", "SRP Bitterroot"), ("Card ID", "SRP-BR-001-U")] 0 (some 30))[3]?
        = some (Op.text 689 1008 "SRP-BR-001-U")
    ∧ (982 : ℤ) < 1008 ∧ ¬ ((1008 : ℤ) < 982) := by
  refine ⟨by decide, by decide, by decide, by decide, by decide, by decide⟩

/-- C3 (amended): for every row, draw_footer renders the set/edition string
left-aligned in the footer plaque (at the plaque's left edge plus 20), and
renders the ordinal string "(index+1)/total" stacked directly above the card
ID (the card ID sits directly below it), with both of those lines
right-aligned at the plaque's right edge: they share one right-alignment
edge at the variant's fixed inset from the plaque's right edge — 10 pixels
in the source/generators variant, 20 pixels in the release variant. -/
theorem draw_footer_spec (tb : ℕ → String → ℤ × ℤ) (foot_rect : Rect) (row : RowT)
    (index : ℕ) (total_cards : Option ℤ)
    (hth : 0 ≤ (tb 22 (toString ((index : ℤ) + 1) ++ "/" ++ toString (total_cards.getD 1))).2) :
    (FactionGen.draw_footer tb foot_rect row index total_cards).leftOp.x = foot_rect.x0 + 20
    ∧ (FactionGen.draw_footer tb foot_rect row index total_cards).leftOp.s
        = sanitize (some (row_get row FactionGen.COL_SET_EDITION ""))
    ∧ (FactionGen.draw_footer tb foot_rect row index total_cards).ordinalOp.s
        = toString ((index : ℤ) + 1) ++ "/" ++ toString (total_cards.getD 1)
    ∧ (FactionGen.draw_footer tb foot_rect row index total_cards).cardIdOp.s
        = sanitize (some (row_get row FactionGen.COL_CARD_ID ""))
    ∧ (FactionGen.draw_footer tb foot_rect row index total_cards).ordinalOp.x
        + (tb 22 ((FactionGen.draw_footer tb foot_rect row index total_cards).ordinalOp.s)).1
        = foot_rect.x1 - 10
    ∧ (FactionGen.draw_footer tb foot_rect row index total_cards).cardIdOp.x
        + (tb 22 ((FactionGen.draw_footer tb foot_rect row index total_cards).cardIdOp.s)).1
        = foot_rect.x1 - 10
    ∧ (FactionGen.draw_footer tb foot_rect row index total_cards).ordinalOp.y
        < (FactionGen.draw_footer tb foot_rect row index total_cards).cardIdOp.y
    ∧ (∃ yl top_y : ℤ,
        ReleaseGen.draw_footer tb foot_rect row index total_cards
          = [Op.plaque foot_rect 10,
             Op.text (foot_rect.x0 + 20) yl
               (sanitize (some (ReleaseGen.field row
                 ["Set/Edition", "Set", "Edition", "Collection", "Collection/Edition",
                  "Set Name"]))),
             Op.text ((foot_rect.x1 - 20)
                 - (tb 22 (toString ((index : ℤ) + 1) ++ "/"
                     ++ toString (total_cards.getD 1))).1)
               top_y
               (toString ((index : ℤ) + 1) ++ "/" ++ toString (total_cards.getD 1)),
             Op.text ((foot_rect.x1 - 20)
                 - (tb 22 (sanitize (some (ReleaseGen.field row
                     ["Card ID", "CardID", "ID", "Card_Id", "Card Number"])))).1)
               (top_y + (tb 22 (toString ((index : ℤ) + 1) ++ "/"
                   ++ toString (total_cards.getD 1))).2 + 6)
               (sanitize (some (ReleaseGen.field row
                 ["Card ID", "CardID", "ID", "Card_Id", "Card Number"])))]
        ∧ top_y < top_y + (tb 22 (toString ((index : ℤ) + 1) ++ "/"
            ++ toString (total_cards.getD 1))).2 + 6) := by
  refine ⟨rfl, rfl, rfl, rfl, by simp [FactionGen.draw_footer], by simp [FactionGen.draw_footer],
    ?_, ?_⟩
  · simp only [FactionGen.draw_footer]
    omega
  · refine ⟨Int.fdiv (foot_rect.y0 + foot_rect.y1
        - (tb 22 (sanitize (some (ReleaseGen.field row
            ["Set/Edition", "Set", "Edition", "Collection", "Collection/Edition",
             "Set Name"])))).2) 2,
      Int.fdiv (foot_rect.y0 + foot_rect.y1
        - ((tb 22 (sanitize (some (ReleaseGen.field row
              ["Card ID", "CardID", "ID", "Card_Id", "Card Number"])))).2
          + (tb 22 (toString ((index : ℤ) + 1) ++ "/"
              ++ toString (total_cards.getD 1))).2 + 6)) 2, rfl, ?_⟩
    omega

/-- C3 witness: the amended footer specification applied at a concrete text
measure, footer rect, row, index and total. -/
theorem draw_footer_spec_witness :
    (0 ≤ ((fun (_ : ℕ) (_ : String) => ((9 : ℤ), (20 : ℤ))) 22
        (toString (((0 : ℕ) : ℤ) + 1) ++ "/" ++ toString ((some (30 : ℤ)).getD 1))).2)
    ∧ ((FactionGen.draw_footer (fun _ _ => (9, 20)) ⟨32, 954, 718, 1014⟩
          [("Set/Edition", "SRP Bitterroot"), ("Card ID", "SRP-BR-001-U")] 0
          (some 30)).leftOp.x = (32 : ℤ) + 20
      ∧ (FactionGen.draw_footer (fun _ _ => (9, 20)) ⟨32, 954, 718, 1014⟩
          [("Set/Edition", "SRP Bitterroot"), ("Card ID", "SRP-BR-001-U")] 0
          (some 30)).leftOp.s
          = sanitize (some (row_get [("Set/Edition", "SRP Bitterroot"),
              ("Card ID", "SRP-BR-001-U")] FactionGen.COL_SET_EDITION ""))
      ∧ (FactionGen.draw_footer (fun _ _ => (9, 20)) ⟨32, 954, 718, 1014⟩
          [("Set/Edition", "SRP Bitterroot"), ("Card ID", "SRP-BR-001-U")] 0
          (some 30)).ordinalOp.s
          = toString (((0 : ℕ) : ℤ) + 1) ++ "/" ++ toString ((some (30 : ℤ)).getD 1)
      ∧ (FactionGen.draw_footer (fun _ _ => (9, 20)) ⟨32, 954, 718, 1014⟩
          [("Set/Edition", "SRP Bitterroot"), ("Card ID", "SRP-BR-001-U")] 0
          (some 30)).cardIdOp.s
          = sanitize (some (row_get [("Set/Edition", "SRP Bitterroot"),
              ("Card ID", "SRP-BR-001-U")] FactionGen.COL_CARD_ID ""))
      ∧ (FactionGen.draw_footer (fun _ _ => (9, 20)) ⟨32, 954, 718, 1014⟩
          [("Set/Edition", "SRP Bitterroot"), ("Card ID", "SRP-BR-001-U")] 0
          (some 30)).ordinalOp.x
          + ((fun (_ : ℕ) (_ : String) => ((9 : ℤ), (20 : ℤ))) 22
              ((FactionGen.draw_footer (fun _ _ => (9, 20)) ⟨32, 954, 718, 1014⟩
                [("Set/Edition", "SRP Bitterroot"), ("Card ID", "SRP-BR-001-U")] 0
                (some 30)).ordinalOp.s)).1
          = (718 : ℤ) - 10
      ∧ (FactionGen.draw_footer (fun _ _ => (9, 20)) ⟨32, 954, 718, 1014⟩
          [("Set/Edition", "SRP Bitterroot"), ("Card ID", "SRP-BR-001-U")] 0
          (some 30)).cardIdOp.x
          + ((fun (_ : ℕ) (_ : String) => ((9 : ℤ), (20 : ℤ))) 22
              ((FactionGen.draw_footer (fun _ _ => (9, 20)) ⟨32, 954, 718, 1014⟩
                [("Set/Edition", "SRP Bitterroot"), ("Card ID", "SRP-BR-001-U")] 0
                (some 30)).cardIdOp.s)).1
          = (718 : ℤ) - 10
      ∧ (FactionGen.draw_footer (fun _ _ => (9, 20)) ⟨32, 954, 718, 1014⟩
          [("Set/Edition", "SRP Bitterroot"), ("Card ID", "SRP-BR-001-U")] 0
          (some 30)).ordinalOp.y
          < (FactionGen.draw_footer (fun _ _ => (9, 20)) ⟨32, 954, 718, 1014⟩
            [("Set/Edition", "SRP Bitterroot"), ("Card ID", "SRP-BR-001-U")] 0
            (some 30)).cardIdOp.y
      ∧ (∃ yl top_y : ℤ,
          ReleaseGen.draw_footer (fun _ _ => (9, 20)) ⟨32, 954, 718, 1014⟩
              [("Set/Edition", "SRP Bitterroot"), ("Card ID", "SRP-BR-001-U")] 0 (some 30)
            = [Op.plaque ⟨32, 954, 718, 1014⟩ 10,
               Op.text ((32 : ℤ) + 20) yl
                 (sanitize (some (ReleaseGen.field
                   [("Set/Edition", "SRP Bitterroot"), ("Card ID", "SRP-BR-001-U")]
                   ["Set/Edition", "Set", "Edition", "Collection", "Collection/Edition",
                    "Set Name"]))),
               Op.text (((718 : ℤ) - 20)
                   - ((fun (_ : ℕ) (_ : String) => ((9 : ℤ), (20 : ℤ))) 22
                       (toString (((0 : ℕ) : ℤ) + 1) ++ "/"
                         ++ toString ((some (30 : ℤ)).getD 1))).1)
                 top_y
                 (toString (((0 : ℕ) : ℤ) + 1) ++ "/" ++ toString ((some (30 : ℤ)).getD 1)),
               Op.text (((718 : ℤ) - 20)
                   - ((fun (_ : ℕ) (_ : String) => ((9 : ℤ), (20 : ℤ))) 22
                       (sanitize (some (ReleaseGen.field
                         [("Set/Edition", "SRP Bitterroot"), ("Card ID", "SRP-BR-001-U")]
                         ["Card ID", "CardID", "ID", "Card_Id", "Card Number"])))).1)
                 (top_y + ((fun (_ : ℕ) (_ : String) => ((9 : ℤ), (20 : ℤ))) 22
                     (toString (((0 : ℕ) : ℤ) + 1) ++ "/"
                       ++ toString ((some (30 : ℤ)).getD 1))).2 + 6)
                 (sanitize (some (ReleaseGen.field
                   [("Set/Edition", "SRP Bitterroot"), ("Card ID", "SRP-BR-001-U")]
                   ["Card ID", "CardID", "ID", "Card_Id", "Card Number"])))]
          ∧ top_y < top_y + ((fun (_ : ℕ) (_ : String) => ((9 : ℤ), (20 : ℤ))) 22
              (toString (((0 : ℕ) : ℤ) + 1) ++ "/"
                ++ toString ((some (30 : ℤ)).getD 1))).2 + 6)) :=
  ⟨by decide, draw_footer_spec (fun _ _ => (9, 20)) ⟨32, 954, 718, 1014⟩
    [("Set/Edition", "SRP Bitterroot"), ("Card ID", "SRP-BR-001-U")] 0 (some 30) (by decide)⟩

/-- C1: for every input image with positive width and height and every
positive target size, cover_fit resizes to exactly (target_w, target_h), and
the crop performed before resizing stays inside the image, crops only the
dimension that is relatively larger than the target aspect ratio (width when
iw/ih > target_w/target_h, height otherwise, the other dimension being kept
in full), and removes pixels symmetrically about the center: the two removed
margins differ by at most one pixel. -/
theorem cover_fit_spec (iw ih target_w target_h : ℕ)
    (hiw : 0 < iw) (hih : 0 < ih) (htw : 0 < target_w) (hth : 0 < target_h) :
    (cover_fit iw ih target_w target_h).2 = (target_w, target_h)
    ∧ (target_w * ih < iw * target_h →
        (cover_fit iw ih target_w target_h).1.y0 = 0
        ∧ (cover_fit iw ih target_w target_h).1.y1 = ih
        ∧ (cover_fit iw ih target_w target_h).1.x0 ≤ (cover_fit iw ih target_w target_h).1.x1
        ∧ (cover_fit iw ih target_w target_h).1.x1 ≤ iw
        ∧ (cover_fit iw ih target_w target_h).1.x0
            ≤ (iw - (cover_fit iw ih target_w target_h).1.x1) + 1
        ∧ (iw - (cover_fit iw ih target_w target_h).1.x1)
            ≤ (cover_fit iw ih target_w target_h).1.x0 + 1)
    ∧ (¬ target_w * ih < iw * target_h →
        (cover_fit iw ih target_w target_h).1.x0 = 0
        ∧ (cover_fit iw ih target_w target_h).1.x1 = iw
        ∧ (cover_fit iw ih target_w target_h).1.y0 ≤ (cover_fit iw ih target_w target_h).1.y1
        ∧ (cover_fit iw ih target_w target_h).1.y1 ≤ ih
        ∧ (cover_fit iw ih target_w target_h).1.y0
            ≤ (ih - (cover_fit iw ih target_w target_h).1.y1) + 1
        ∧ (ih - (cover_fit iw ih target_w target_h).1.y1)
            ≤ (cover_fit iw ih target_w target_h).1.y0 + 1) := by
  refine ⟨rfl, fun hlt => ?_, fun hge => ?_⟩
  · obtain ⟨m, hm⟩ : ∃ m, m = ih * target_w / target_h := ⟨_, rfl⟩
    have hw : m < iw := by
      rw [hm, Nat.div_lt_iff_lt_mul hth]
      calc ih * target_w = target_w * ih := Nat.mul_comm ih target_w
        _ < iw * target_h := hlt
    have hc : (cover_fit iw ih target_w target_h).1
        = CropBox.mk ((iw - m) / 2) 0 ((iw - m) / 2 + m) ih := by
      simp only [cover_fit]
      rw [if_pos hlt, hm]
    rw [hc]
    dsimp only
    refine ⟨rfl, rfl, ?_, ?_, ?_, ?_⟩ <;> omega
  · obtain ⟨m, hm⟩ : ∃ m, m = iw * target_h / target_w := ⟨_, rfl⟩
    have hh : m ≤ ih := by
      have h1 : iw * target_h ≤ target_w * ih := Nat.not_lt.mp hge
      rw [hm]
      calc iw * target_h / target_w ≤ target_w * ih / target_w := Nat.div_le_div_right h1
        _ = ih := Nat.mul_div_cancel_left ih htw
    have hc : (cover_fit iw ih target_w target_h).1
        = CropBox.mk 0 ((ih - m) / 2) iw ((ih - m) / 2 + m) := by
      simp only [cover_fit]
      rw [if_neg hge, hm]
    rw [hc]
    dsimp only
    refine ⟨rfl, rfl, ?_, ?_, ?_, ?_⟩ <;> omega

/-- C1 witness: the cover_fit specification applied to a 10 by 4 image and
a 3 by 3 target (the source is relatively wider, so the width is cropped). -/
theorem cover_fit_spec_witness :
    (0 < 10 ∧ 0 < 4 ∧ 0 < 3 ∧ 0 < 3)
    ∧ ((cover_fit 10 4 3 3).2 = (3, 3)
      ∧ (3 * 4 < 10 * 3 →
          (cover_fit 10 4 3 3).1.y0 = 0
          ∧ (cover_fit 10 4 3 3).1.y1 = 4
          ∧ (cover_fit 10 4 3 3).1.x0 ≤ (cover_fit 10 4 3 3).1.x1
          ∧ (cover_fit 10 4 3 3).1.x1 ≤ 10
          ∧ (cover_fit 10 4 3 3).1.x0 ≤ (10 - (cover_fit 10 4 3 3).1.x1) + 1
          ∧ (10 - (cover_fit 10 4 3 3).1.x1) ≤ (cover_fit 10 4 3 3).1.x0 + 1)
      ∧ (¬ 3 * 4 < 10 * 3 →
          (cover_fit 10 4 3 3).1.x0 = 0
          ∧ (cover_fit 10 4 3 3).1.x1 = 10
          ∧ (cover_fit 10 4 3 3).1.y0 ≤ (cover_fit 10 4 3 3).1.y1
          ∧ (cover_fit 10 4 3 3).1.y1 ≤ 4
          ∧ (cover_fit 10 4 3 3).1.y0 ≤ (4 - (cover_fit 10 4 3 3).1.y1) + 1
          ∧ (4 - (cover_fit 10 4 3 3).1.y1) ≤ (cover_fit 10 4 3 3).1.y0 + 1)) :=
  ⟨by decide, cover_fit_spec 10 4 3 3 (by decide) (by decide) (by decide) (by decide)⟩

/-- C4: pip_grid_positions satisfies the special-case layout rules.  Rank
"5" is the rank-"4" list plus one pip at the exact center of the pip area
(horizontal center 365, vertical center 512); rank "7" is rank "6" plus one
centered pip at the midpoint of the first two rank-6 rows (whose y centers
are 200, 512, 824); rank "9" is rank "8" plus one centered pip at the
midpoint of the second and third rank-8 rows (y centers 200, 408, 616, 824);
ranks "2" and "3" are direct single-centered-column layouts of 2 and 3
evenly spaced rows, and rank "3" is not the even-base-plus-extra list that
the odd-rank rule would produce from rank "2". -/
theorem pip_layout_special_cases :
    PlayingCards.pip_grid_positions "5" = PlayingCards.pip_grid_positions "4"
        ++ [(PlayingCards.lerp PlayingCards.SET_L PlayingCards.SET_R (1/2),
             PlayingCards.lerp PlayingCards.SET_B PlayingCards.SET_T (1/2))]
    ∧ PlayingCards.lerp PlayingCards.SET_L PlayingCards.SET_R (1/2) = 365
    ∧ PlayingCards.lerp PlayingCards.SET_B PlayingCards.SET_T (1/2) = 512
    ∧ PlayingCards.yVals 3 = [200, 512, 824]
    ∧ PlayingCards.pip_grid_positions "7" = PlayingCards.pip_grid_positions "6"
        ++ [(365, (200 + 512) / 2)]
    ∧ PlayingCards.yVals 4 = [200, 408, 616, 824]
    ∧ PlayingCards.pip_grid_positions "9" = PlayingCards.pip_grid_positions "8"
        ++ [(365, (408 + 616) / 2)]
    ∧ PlayingCards.pip_grid_positions "2" = [(365, 200), (365, 824)]
    ∧ PlayingCards.pip_grid_positions "3" = [(365, 200), (365, 512), (365, 824)]
    ∧ PlayingCards.pip_grid_positions "3"
        ≠ PlayingCards.pip_grid_positions "2" ++ [(365, 512)] := by
  have e2 : PlayingCards.pip_grid_positions "2" = [(365, 200), (365, 824)] := by
    have eb : PlayingCards.pip_grid_positions "2"
        = (PlayingCards.yVals 2).map
          (fun y => (PlayingCards.lerp PlayingCards.SET_L PlayingCards.SET_R (1/2), y)) := rfl
    rw [eb]
    norm_num [PlayingCards.yVals, PlayingCards.rowTs, PlayingCards.lerp, PlayingCards.SET_B,
      PlayingCards.SET_T, PlayingCards.SET_L, PlayingCards.SET_R, PlayingCards.PAD_X,
      PlayingCards.PAD_Y, PlayingCards.CARD_W, PlayingCards.CARD_H, PlayingCards.PIP_EXTRA_PAD,
      List.range_succ]
  have e3 : PlayingCards.pip_grid_positions "3" = [(365, 200), (365, 512), (365, 824)] := by
    have eb : PlayingCards.pip_grid_positions "3"
        = (PlayingCards.yVals 3).map
          (fun y => (PlayingCards.lerp PlayingCards.SET_L PlayingCards.SET_R (1/2), y)) := rfl
    rw [eb]
    norm_num [PlayingCards.yVals, PlayingCards.rowTs, PlayingCards.lerp, PlayingCards.SET_B,
      PlayingCards.SET_T, PlayingCards.SET_L, PlayingCards.SET_R, PlayingCards.PAD_X,
      PlayingCards.PAD_Y, PlayingCards.CARD_W, PlayingCards.CARD_H, PlayingCards.PIP_EXTRA_PAD,
      List.range_succ]
  refine ⟨rfl, ?_, ?_, ?_, ?_, ?_, ?_, e2, e3, ?_⟩
  · norm_num [PlayingCards.lerp, PlayingCards.SET_L, PlayingCards.SET_R, PlayingCards.PAD_X,
      PlayingCards.CARD_W]
  · norm_num [PlayingCards.lerp, PlayingCards.SET_B, PlayingCards.SET_T, PlayingCards.PAD_Y,
      PlayingCards.CARD_H, PlayingCards.PIP_EXTRA_PAD]
  · norm_num [PlayingCards.yVals, PlayingCards.rowTs, PlayingCards.lerp, PlayingCards.SET_B,
      PlayingCards.SET_T, PlayingCards.PAD_Y, PlayingCards.CARD_H, PlayingCards.PIP_EXTRA_PAD,
      List.range_succ]
  · have e7 : PlayingCards.pip_grid_positions "7" = PlayingCards.evenGrid 6
        ++ [(PlayingCards.lerp PlayingCards.SET_L PlayingCards.SET_R (1/2),
             (PlayingCards.centerYs 3).getD 0 0)] := rfl
    have e6 : PlayingCards.pip_grid_positions "6" = PlayingCards.evenGrid 6 := rfl
    rw [e7, e6]
    refine congrArg (fun l => PlayingCards.evenGrid 6 ++ l) ?_
    norm_num [PlayingCards.centerYs, PlayingCards.yVals, PlayingCards.rowTs, PlayingCards.lerp,
      PlayingCards.SET_B, PlayingCards.SET_T, PlayingCards.SET_L, PlayingCards.SET_R,
      PlayingCards.PAD_X, PlayingCards.PAD_Y, PlayingCards.CARD_W, PlayingCards.CARD_H,
      PlayingCards.PIP_EXTRA_PAD, List.range_succ]
  · norm_num [PlayingCards.yVals, PlayingCards.rowTs, PlayingCards.lerp, PlayingCards.SET_B,
      PlayingCards.SET_T, PlayingCards.PAD_Y, PlayingCards.CARD_H, PlayingCards.PIP_EXTRA_PAD,
      List.range_succ]
  · have e9 : PlayingCards.pip_grid_positions "9" = PlayingCards.evenGrid 8
        ++ [(PlayingCards.lerp PlayingCards.SET_L PlayingCards.SET_R (1/2),
             (PlayingCards.centerYs 4).getD 1 0)] := rfl
    have e8 : PlayingCards.pip_grid_positions "8" = PlayingCards.evenGrid 8 := rfl
    rw [e9, e8]
    refine congrArg (fun l => PlayingCards.evenGrid 8 ++ l) ?_
    norm_num [PlayingCards.centerYs, PlayingCards.yVals, PlayingCards.rowTs, PlayingCards.lerp,
      PlayingCards.SET_B, PlayingCards.SET_T, PlayingCards.SET_L, PlayingCards.SET_R,
      PlayingCards.PAD_X, PlayingCards.PAD_Y, PlayingCards.CARD_W, PlayingCards.CARD_H,
      PlayingCards.PIP_EXTRA_PAD, List.range_succ]
  · rw [e2, e3]
    norm_num

/-- The fit loop never increases either size: its result is bounded by the
starting pair. -/
theorem fit_loop_le (measure : ℕ → ℕ → ℤ) (av : ℤ) (ma mf : ℕ) :
    ∀ n a f, a + f ≤ n →
      (FactionGen.fit_loop measure av ma mf a f).1 ≤ a
      ∧ (FactionGen.fit_loop measure av ma mf a f).2 ≤ f := by
  intro n
  induction n with
  | zero =>
    intro a f h
    have ha : a = 0 := by omega
    have hf : f = 0 := by omega
    subst ha
    subst hf
    rw [FactionGen.fit_loop, if_pos (Or.inr ⟨Nat.zero_le _, Nat.zero_le _⟩)]
    exact ⟨le_refl _, le_refl _⟩
  | succ n ih =>
    intro a f h
    by_cases hstop : measure a f ≤ av ∨ (a ≤ ma ∧ f ≤ mf)
    · rw [FactionGen.fit_loop, if_pos hstop]
      exact ⟨le_refl _, le_refl _⟩
    · by_cases hA : ma < a
      · have e : FactionGen.fit_loop measure av ma mf a f
            = FactionGen.fit_loop measure av ma mf (a - 1) f := by
          rw [FactionGen.fit_loop, if_neg hstop, if_pos hA]
        rw [e]
        have := ih (a - 1) f (by omega)
        exact ⟨le_trans this.1 (by omega), this.2⟩
      · by_cases hF : mf < f
        · have e : FactionGen.fit_loop measure av ma mf a f
              = FactionGen.fit_loop measure av ma mf a (f - 1) := by
            rw [FactionGen.fit_loop, if_neg hstop, if_neg hA, if_pos hF]
          rw [e]
          have := ih a (f - 1) (by omega)
          exact ⟨this.1, le_trans this.2 (by omega)⟩
        · rw [FactionGen.fit_loop, if_neg hstop, if_neg hA, if_neg hF]
          exact ⟨le_refl _, le_refl _⟩

/-- The fit loop never pushes the ability size below its minimum. -/
theorem fit_loop_min_le (measure : ℕ → ℕ → ℤ) (av : ℤ) (ma mf : ℕ) :
    ∀ n a f, a + f ≤ n → ma ≤ a → ma ≤ (FactionGen.fit_loop measure av ma mf a f).1 := by
  intro n
  induction n with
  | zero =>
    intro a f h hma
    have ha : a = 0 := by omega
    have hf : f = 0 := by omega
    subst ha
    subst hf
    rw [FactionGen.fit_loop, if_pos (Or.inr ⟨Nat.zero_le _, Nat.zero_le _⟩)]
    exact hma
  | succ n ih =>
    intro a f h hma
    by_cases hstop : measure a f ≤ av ∨ (a ≤ ma ∧ f ≤ mf)
    · rw [FactionGen.fit_loop, if_pos hstop]
      exact hma
    · by_cases hA : ma < a
      · have e : FactionGen.fit_loop measure av ma mf a f
            = FactionGen.fit_loop measure av ma mf (a - 1) f := by
          rw [FactionGen.fit_loop, if_neg hstop, if_pos hA]
        rw [e]
        exact ih (a - 1) f (by omega) (by omega)
      · by_cases hF : mf < f
        · have e : FactionGen.fit_loop measure av ma mf a f
              = FactionGen.fit_loop measure av ma mf a (f - 1) := by
            rw [FactionGen.fit_loop, if_neg hstop, if_neg hA, if_pos hF]
          rw [e]
          exact ih a (f - 1) (by omega) hma
        · rw [FactionGen.fit_loop, if_neg hstop, if_neg hA, if_neg hF]
          exact hma

/-- Monotonicity of the fit loop in the available height: a smaller budget
never yields a larger size in either component. -/
theorem fit_loop_mono (measure : ℕ → ℕ → ℤ) (av av' : ℤ) (hav : av ≤ av') (ma mf : ℕ) :
    ∀ n a f, a + f ≤ n →
      (FactionGen.fit_loop measure av ma mf a f).1 ≤ (FactionGen.fit_loop measure av' ma mf a f).1
      ∧ (FactionGen.fit_loop measure av ma mf a f).2
          ≤ (FactionGen.fit_loop measure av' ma mf a f).2 := by
  intro n
  induction n with
  | zero =>
    intro a f h
    have ha : a = 0 := by omega
    have hf : f = 0 := by omega
    subst ha
    subst hf
    have e1 : FactionGen.fit_loop measure av ma mf 0 0 = (0, 0) := by
      rw [FactionGen.fit_loop, if_pos (Or.inr ⟨Nat.zero_le _, Nat.zero_le _⟩)]
    have e2 : FactionGen.fit_loop measure av' ma mf 0 0 = (0, 0) := by
      rw [FactionGen.fit_loop, if_pos (Or.inr ⟨Nat.zero_le _, Nat.zero_le _⟩)]
    rw [e1, e2]
    exact ⟨le_refl _, le_refl _⟩
  | succ n ih =>
    intro a f h
    by_cases hstop' : measure a f ≤ av' ∨ (a ≤ ma ∧ f ≤ mf)
    · have e' : FactionGen.fit_loop measure av' ma mf a f = (a, f) := by
        rw [FactionGen.fit_loop, if_pos hstop']
      rw [e']
      exact fit_loop_le measure av ma mf (a + f) a f (le_refl _)
    · have hstop : ¬ (measure a f ≤ av ∨ (a ≤ ma ∧ f ≤ mf)) := by
        intro hc
        rcases hc with hm | hmin
        · exact hstop' (Or.inl (le_trans hm hav))
        · exact hstop' (Or.inr hmin)
      by_cases hA : ma < a
      · have e1 : FactionGen.fit_loop measure av ma mf a f
            = FactionGen.fit_loop measure av ma mf (a - 1) f := by
          rw [FactionGen.fit_loop, if_neg hstop, if_pos hA]
        have e2 : FactionGen.fit_loop measure av' ma mf a f
            = FactionGen.fit_loop measure av' ma mf (a - 1) f := by
          rw [FactionGen.fit_loop, if_neg hstop', if_pos hA]
        rw [e1, e2]
        exact ih (a - 1) f (by omega)
      · by_cases hF : mf < f
        · have e1 : FactionGen.fit_loop measure av ma mf a f
              = FactionGen.fit_loop measure av ma mf a (f - 1) := by
            rw [FactionGen.fit_loop, if_neg hstop, if_neg hA, if_pos hF]
          have e2 : FactionGen.fit_loop measure av' ma mf a f
              = FactionGen.fit_loop measure av' ma mf a (f - 1) := by
            rw [FactionGen.fit_loop, if_neg hstop', if_neg hA, if_pos hF]
          rw [e1, e2]
          exact ih a (f - 1) (by omega)
        · rw [FactionGen.fit_loop, if_neg hstop, if_neg hA, if_neg hF,
            FactionGen.fit_loop, if_neg hstop', if_neg hA, if_neg hF]
          exact ⟨le_refl _, le_refl _⟩

/-- Starting at or above the ability minimum, the flavor size can only have
been decremented if the ability size has been driven all the way down to its
minimum. -/
theorem fit_loop_flavor_after (measure : ℕ → ℕ → ℤ) (av : ℤ) (ma mf : ℕ) :
    ∀ n a f, a + f ≤ n → ma ≤ a →
      (FactionGen.fit_loop measure av ma mf a f).2 < f
      → (FactionGen.fit_loop measure av ma mf a f).1 = ma := by
  intro n
  induction n with
  | zero =>
    intro a f h hma hlt
    have ha : a = 0 := by omega
    have hf : f = 0 := by omega
    subst ha
    subst hf
    rw [FactionGen.fit_loop, if_pos (Or.inr ⟨Nat.zero_le _, Nat.zero_le _⟩)] at hlt
    omega
  | succ n ih =>
    intro a f h hma hlt
    by_cases hstop : measure a f ≤ av ∨ (a ≤ ma ∧ f ≤ mf)
    · rw [FactionGen.fit_loop, if_pos hstop] at hlt
      omega
    · by_cases hA : ma < a
      · have e : FactionGen.fit_loop measure av ma mf a f
            = FactionGen.fit_loop measure av ma mf (a - 1) f := by
          rw [FactionGen.fit_loop, if_neg hstop, if_pos hA]
        rw [e] at hlt ⊢
        exact ih (a - 1) f (by omega) (by omega) hlt
      · by_cases hF : mf < f
        · have e : FactionGen.fit_loop measure av ma mf a f
              = FactionGen.fit_loop measure av ma mf a (f - 1) := by
            rw [FactionGen.fit_loop, if_neg hstop, if_neg hA, if_pos hF]
          rw [e]
          have h1 := (fit_loop_le measure av ma mf (a + (f - 1)) a (f - 1) (le_refl _)).1
          have h2 := fit_loop_min_le measure av ma mf (a + (f - 1)) a (f - 1) (le_refl _) hma
          omega
        · rw [FactionGen.fit_loop, if_neg hstop, if_neg hA, if_neg hF] at hlt
          omega

/-- C2: the shrink-to-fit search of draw_rules_flavor_centered starts at the
maximum sizes (25, 24); while the measured stacked height exceeds the
available height it decrements the ability size by one unit as long as it is
above its minimum 18, and only once the ability size is at (or below) 18
does it decrement the flavor size; it stops as soon as the text fits or both
sizes are at their minimums, returning the current pair (accepting overflow
in the latter case); whenever the returned flavor size has been decremented
at all, the returned ability size is exactly 18; and for the same measure
function (same ability and flavor texts), a smaller available height never
yields a larger chosen pair than a larger available height. -/
theorem draw_rules_flavor_fit_spec (measure : ℕ → ℕ → ℤ) (av av' : ℤ) (hav : av ≤ av') :
    FactionGen.draw_rules_flavor_sizes measure av = FactionGen.fit_loop measure av 18 18 25 24
    ∧ (∀ a f : ℕ, ¬ (measure a f ≤ av ∨ (a ≤ 18 ∧ f ≤ 18)) → 18 < a →
        FactionGen.fit_loop measure av 18 18 a f = FactionGen.fit_loop measure av 18 18 (a - 1) f)
    ∧ (∀ a f : ℕ, ¬ (measure a f ≤ av ∨ (a ≤ 18 ∧ f ≤ 18)) → ¬ 18 < a → 18 < f →
        FactionGen.fit_loop measure av 18 18 a f = FactionGen.fit_loop measure av 18 18 a (f - 1))
    ∧ (∀ a f : ℕ, (measure a f ≤ av ∨ (a ≤ 18 ∧ f ≤ 18)) →
        FactionGen.fit_loop measure av 18 18 a f = (a, f))
    ∧ ((FactionGen.draw_rules_flavor_sizes measure av).2 < 24
        → (FactionGen.draw_rules_flavor_sizes measure av).1 = 18)
    ∧ (FactionGen.draw_rules_flavor_sizes measure av).1
        ≤ (FactionGen.draw_rules_flavor_sizes measure av').1
    ∧ (FactionGen.draw_rules_flavor_sizes measure av).2
        ≤ (FactionGen.draw_rules_flavor_sizes measure av').2 := by
  refine ⟨rfl, ?_, ?_, ?_, ?_, ?_, ?_⟩
  · intro a f hstop hA
    rw [FactionGen.fit_loop, if_neg hstop, if_pos hA]
  · intro a f hstop hA hF
    rw [FactionGen.fit_loop, if_neg hstop, if_neg hA, if_pos hF]
  · intro a f hstop
    rw [FactionGen.fit_loop, if_pos hstop]
  · exact fun hlt => fit_loop_flavor_after measure av 18 18 49 25 24 (by omega) (by omega) hlt
  · exact (fit_loop_mono measure av av' hav 18 18 49 25 24 (by omega)).1
  · exact (fit_loop_mono measure av av' hav 18 18 49 25 24 (by omega)).2

/-- C2 witness: the fit specification applied to the measure function
a + f with available heights 40 and 45. -/
theorem draw_rules_flavor_fit_spec_witness :
    ((40 : ℤ) ≤ 45)
    ∧ (FactionGen.draw_rules_flavor_sizes (fun a f => (a : ℤ) + f) 40
        = FactionGen.fit_loop (fun a f => (a : ℤ) + f) 40 18 18 25 24
      ∧ (∀ a f : ℕ, ¬ ((fun a f => (a : ℤ) + f) a f ≤ 40 ∨ (a ≤ 18 ∧ f ≤ 18)) → 18 < a →
          FactionGen.fit_loop (fun a f => (a : ℤ) + f) 40 18 18 a f
            = FactionGen.fit_loop (fun a f => (a : ℤ) + f) 40 18 18 (a - 1) f)
      ∧ (∀ a f : ℕ, ¬ ((fun a f => (a : ℤ) + f) a f ≤ 40 ∨ (a ≤ 18 ∧ f ≤ 18)) → ¬ 18 < a
            → 18 < f →
          FactionGen.fit_loop (fun a f => (a : ℤ) + f) 40 18 18 a f
            = FactionGen.fit_loop (fun a f => (a : ℤ) + f) 40 18 18 a (f - 1))
      ∧ (∀ a f : ℕ, ((fun a f => (a : ℤ) + f) a f ≤ 40 ∨ (a ≤ 18 ∧ f ≤ 18)) →
          FactionGen.fit_loop (fun a f => (a : ℤ) + f) 40 18 18 a f = (a, f))
      ∧ ((FactionGen.draw_rules_flavor_sizes (fun a f => (a : ℤ) + f) 40).2 < 24
          → (FactionGen.draw_rules_flavor_sizes (fun a f => (a : ℤ) + f) 40).1 = 18)
      ∧ (FactionGen.draw_rules_flavor_sizes (fun a f => (a : ℤ) + f) 40).1
          ≤ (FactionGen.draw_rules_flavor_sizes (fun a f => (a : ℤ) + f) 45).1
      ∧ (FactionGen.draw_rules_flavor_sizes (fun a f => (a : ℤ) + f) 40).2
          ≤ (FactionGen.draw_rules_flavor_sizes (fun a f => (a : ℤ) + f) 45).2) :=
  ⟨by norm_num, draw_rules_flavor_fit_spec (fun a f => (a : ℤ) + f) 40 45 (by norm_num)⟩

/-- Every line emitted by the wrap_left loop that holds two or more words
was accepted by the width test when it was grown, provided the incoming
current line already satisfied that invariant. -/
theorem wrap_left_go_le_width (tl : String → ℤ) (max_w : ℤ) :
    ∀ ws cur, (2 ≤ cur.length → tl (joinWords cur) ≤ max_w) →
      ∀ lw ∈ FactionGen.wrap_left_go tl max_w ws cur, 2 ≤ lw.length
        → tl (joinWords lw) ≤ max_w := by
  intro ws
  induction ws with
  | nil =>
    intro cur hcur lw hlw
    by_cases h : cur = []
    · simp [FactionGen.wrap_left_go, h] at hlw
    · simp only [FactionGen.wrap_left_go, if_neg h, List.mem_singleton] at hlw
      subst hlw
      exact hcur
  | cons w ws ih =>
    intro cur hcur lw hlw
    simp only [FactionGen.wrap_left_go] at hlw
    by_cases hfit : tl (joinWords (cur ++ [w])) ≤ max_w
    · rw [if_pos hfit] at hlw
      exact ih (cur ++ [w]) (fun _ => hfit) lw hlw
    · rw [if_neg hfit] at hlw
      by_cases hemp : cur = []
      · rw [if_pos hemp] at hlw
        exact ih [w] (fun hh => absurd hh (by norm_num)) lw hlw
      · rw [if_neg hemp] at hlw
        rcases List.mem_cons.mp hlw with hcq | hlw'
        · subst hcq
          exact hcur
        · exact ih [w] (fun hh => absurd hh (by norm_num)) lw hlw'

/-- A nonempty current line that is already over the budget is emitted as a
line of its own by the wrap_left loop, provided the width measure never
shrinks when a word is appended. -/
theorem wrap_left_go_stuck (tl : String → ℤ) (max_w : ℤ)
    (h2 : ∀ l w, tl (joinWords l) ≤ tl (joinWords (l ++ [w]))) :
    ∀ ws cur, cur ≠ [] → max_w < tl (joinWords cur)
      → cur ∈ FactionGen.wrap_left_go tl max_w ws cur := by
  intro ws
  induction ws with
  | nil =>
    intro cur hne _
    simp [FactionGen.wrap_left_go, hne]
  | cons w ws ih =>
    intro cur hne hwide
    have hfit : ¬ tl (joinWords (cur ++ [w])) ≤ max_w := by
      have := h2 cur w
      omega
    simp only [FactionGen.wrap_left_go, if_neg hfit, if_neg hne]
    exact List.mem_cons_self _ _

/-- A word wider than the budget ends up alone on its own line in the
wrap_left loop (for a width measure monotone under appending a word on
either side). -/
theorem wrap_left_go_overwide (tl : String → ℤ) (max_w : ℤ)
    (h1 : ∀ l w, tl w ≤ tl (joinWords (l ++ [w])))
    (h2 : ∀ l w, tl (joinWords l) ≤ tl (joinWords (l ++ [w]))) :
    ∀ ws cur w, w ∈ ws → max_w < tl w
      → [w] ∈ FactionGen.wrap_left_go tl max_w ws cur := by
  intro ws
  induction ws with
  | nil =>
    intro cur w h
    exact absurd h (List.not_mem_nil _)
  | cons u ws ih =>
    intro cur w hmem hwide
    rcases List.mem_cons.mp hmem with hcq | htail
    · subst hcq
      have hfit : ¬ tl (joinWords (cur ++ [w])) ≤ max_w := by
        have := h1 cur w
        omega
      have hstuck : [w] ∈ FactionGen.wrap_left_go tl max_w ws [w] := by
        refine wrap_left_go_stuck tl max_w h2 ws [w] (by simp) ?_
        simpa [joinWords] using hwide
      simp only [FactionGen.wrap_left_go, if_neg hfit]
      by_cases hemp : cur = []
      · rw [if_pos hemp]
        exact hstuck
      · rw [if_neg hemp]
        exact List.mem_cons_of_mem _ hstuck
    · simp only [FactionGen.wrap_left_go]
      by_cases hfit : tl (joinWords (cur ++ [u])) ≤ max_w
      · rw [if_pos hfit]
        exact ih _ w htail hwide
      · rw [if_neg hfit]
        by_cases hemp : cur = []
        · rw [if_pos hemp]
          exact ih _ w htail hwide
        · rw [if_neg hemp]
          exact List.mem_cons_of_mem _ (ih _ w htail hwide)

/-- The wrap_left loop partitions its input: the concatenation of the
emitted lines is the pending current line followed by the remaining words
(no word is dropped, duplicated or broken). -/
theorem wrap_left_go_join (tl : String → ℤ) (max_w : ℤ) :
    ∀ ws cur, (FactionGen.wrap_left_go tl max_w ws cur).flatten = cur ++ ws := by
  intro ws
  induction ws with
  | nil =>
    intro cur
    by_cases h : cur = [] <;> simp [FactionGen.wrap_left_go, h]
  | cons w ws ih =>
    intro cur
    simp only [FactionGen.wrap_left_go]
    by_cases hfit : tl (joinWords (cur ++ [w])) ≤ max_w
    · rw [if_pos hfit, ih]
      simp
    · rw [if_neg hfit]
      by_cases hemp : cur = []
      · rw [if_pos hemp, ih, hemp]
        rfl
      · rw [if_neg hemp]
        simp [ih]

/-- Analogue of wrap_left_go_le_width for the draw_center_wrapped_text
wrapping loop. -/
theorem center_wrap_go_le_width (tl : String → ℤ) (max_w : ℤ) :
    ∀ ws cur, (2 ≤ cur.length → tl (joinWords cur) ≤ max_w) →
      ∀ lw ∈ FactionGen.center_wrap_go tl max_w ws cur, 2 ≤ lw.length
        → tl (joinWords lw) ≤ max_w := by
  intro ws
  induction ws with
  | nil =>
    intro cur hcur lw hlw
    by_cases h : cur = []
    · simp [FactionGen.center_wrap_go, h] at hlw
    · simp only [FactionGen.center_wrap_go, if_neg h, List.mem_singleton] at hlw
      subst hlw
      exact hcur
  | cons w ws ih =>
    intro cur hcur lw hlw
    simp only [FactionGen.center_wrap_go] at hlw
    by_cases hfit : tl (joinWords (cur ++ [w])) ≤ max_w
    · rw [if_pos hfit] at hlw
      exact ih (cur ++ [w]) (fun _ => hfit) lw hlw
    · rw [if_neg hfit] at hlw
      rcases List.mem_cons.mp hlw with hcq | hlw'
      · subst hcq
        exact hcur
      · exact ih [w] (fun hh => absurd hh (by norm_num)) lw hlw'

/-- Analogue of wrap_left_go_stuck for the draw_center_wrapped_text loop. -/
theorem center_wrap_go_stuck (tl : String → ℤ) (max_w : ℤ)
    (h2 : ∀ l w, tl (joinWords l) ≤ tl (joinWords (l ++ [w]))) :
    ∀ ws cur, cur ≠ [] → max_w < tl (joinWords cur)
      → cur ∈ FactionGen.center_wrap_go tl max_w ws cur := by
  intro ws
  induction ws with
  | nil =>
    intro cur hne _
    simp [FactionGen.center_wrap_go, hne]
  | cons w ws ih =>
    intro cur hne hwide
    have hfit : ¬ tl (joinWords (cur ++ [w])) ≤ max_w := by
      have := h2 cur w
      omega
    simp only [FactionGen.center_wrap_go, if_neg hfit]
    exact List.mem_cons_self _ _

/-- Analogue of wrap_left_go_overwide for the draw_center_wrapped_text
loop. -/
theorem center_wrap_go_overwide (tl : String → ℤ) (max_w : ℤ)
    (h1 : ∀ l w, tl w ≤ tl (joinWords (l ++ [w])))
    (h2 : ∀ l w, tl (joinWords l) ≤ tl (joinWords (l ++ [w]))) :
    ∀ ws cur w, w ∈ ws → max_w < tl w
      → [w] ∈ FactionGen.center_wrap_go tl max_w ws cur := by
  intro ws
  induction ws with
  | nil =>
    intro cur w h
    exact absurd h (List.not_mem_nil _)
  | cons u ws ih =>
    intro cur w hmem hwide
    rcases List.mem_cons.mp hmem with hcq | htail
    · subst hcq
      have hfit : ¬ tl (joinWords (cur ++ [w])) ≤ max_w := by
        have := h1 cur w
        omega
      have hstuck : [w] ∈ FactionGen.center_wrap_go tl max_w ws [w] := by
        refine center_wrap_go_stuck tl max_w h2 ws [w] (by simp) ?_
        simpa [joinWords] using hwide
      simp only [FactionGen.center_wrap_go, if_neg hfit]
      exact List.mem_cons_of_mem _ hstuck
    · simp only [FactionGen.center_wrap_go]
      by_cases hfit : tl (joinWords (cur ++ [u])) ≤ max_w
      · rw [if_pos hfit]
        exact ih _ w htail hwide
      · rw [if_neg hfit]
        exact List.mem_cons_of_mem _ (ih _ w htail hwide)

/-- Analogue of wrap_left_go_join for the draw_center_wrapped_text loop
(the occasionally emitted empty line contributes no words). -/
theorem center_wrap_go_join (tl : String → ℤ) (max_w : ℤ) :
    ∀ ws cur, (FactionGen.center_wrap_go tl max_w ws cur).flatten = cur ++ ws := by
  intro ws
  induction ws with
  | nil =>
    intro cur
    by_cases h : cur = [] <;> simp [FactionGen.center_wrap_go, h]
  | cons w ws ih =>
    intro cur
    simp only [FactionGen.center_wrap_go]
    by_cases hfit : tl (joinWords (cur ++ [w])) ≤ max_w
    · rw [if_pos hfit, ih]
      simp
    · rw [if_neg hfit]
      simp [ih]

/-- C5: for a text-width measure that never shrinks when a word is appended
on either side (as any physical font measure satisfies), the greedy word
wraps wrap_left and draw_center_wrapped_text never produce a line of two or
more words whose measured width exceeds max_w; a single word wider than
max_w appears alone as a line of its own; and the lines partition the word
sequence exactly (no mid-word breaking, no dropped or duplicated words).
Lines are identified by their word lists; the rendered line is joinWords of
that list, which is what wrap_left returns. -/
theorem wrap_left_spec (tl : String → ℤ) (max_w : ℤ) (txt : String)
    (h1 : ∀ l w, tl w ≤ tl (joinWords (l ++ [w])))
    (h2 : ∀ l w, tl (joinWords l) ≤ tl (joinWords (l ++ [w]))) :
    FactionGen.wrap_left tl max_w txt
        = (FactionGen.wrap_left_go tl max_w (pySplit txt) []).map joinWords
    ∧ (∀ lw ∈ FactionGen.wrap_left_go tl max_w (pySplit txt) [], 2 ≤ lw.length
        → tl (joinWords lw) ≤ max_w)
    ∧ (∀ w ∈ pySplit txt, max_w < tl w
        → [w] ∈ FactionGen.wrap_left_go tl max_w (pySplit txt) [])
    ∧ (FactionGen.wrap_left_go tl max_w (pySplit txt) []).flatten = pySplit txt
    ∧ FactionGen.draw_center_wrapped_lines tl max_w txt
        = (FactionGen.center_wrap_go tl max_w (pySplit txt) []).map joinWords
    ∧ (∀ lw ∈ FactionGen.center_wrap_go tl max_w (pySplit txt) [], 2 ≤ lw.length
        → tl (joinWords lw) ≤ max_w)
    ∧ (∀ w ∈ pySplit txt, max_w < tl w
        → [w] ∈ FactionGen.center_wrap_go tl max_w (pySplit txt) [])
    ∧ (FactionGen.center_wrap_go tl max_w (pySplit txt) []).flatten = pySplit txt := by
  refine ⟨rfl, ?_, ?_, ?_, rfl, ?_, ?_, ?_⟩
  · exact wrap_left_go_le_width tl max_w (pySplit txt) []
      (fun hh => absurd hh (by norm_num))
  · exact fun w hw hwide => wrap_left_go_overwide tl max_w h1 h2 (pySplit txt) [] w hw hwide
  · exact wrap_left_go_join tl max_w (pySplit txt) []
  · exact center_wrap_go_le_width tl max_w (pySplit txt) []
      (fun hh => absurd hh (by norm_num))
  · exact fun w hw hwide => center_wrap_go_overwide tl max_w h1 h2 (pySplit txt) [] w hw hwide
  · exact center_wrap_go_join tl max_w (pySplit txt) []

/-- C5 witness: the wrap specification applied to the constant-zero width
measure, budget 0, and the text "aa bb". -/
theorem wrap_left_spec_witness :
    ((∀ l w, (fun _ => (0 : ℤ)) w ≤ (fun _ => (0 : ℤ)) (joinWords (l ++ [w])))
      ∧ (∀ l w, (fun _ => (0 : ℤ)) (joinWords l) ≤ (fun _ => (0 : ℤ)) (joinWords (l ++ [w]))))
    ∧ (FactionGen.wrap_left (fun _ => 0) 0 "aa bb"
        = (FactionGen.wrap_left_go (fun _ => 0) 0 (pySplit "aa bb") []).map joinWords
      ∧ (∀ lw ∈ FactionGen.wrap_left_go (fun _ => 0) 0 (pySplit "aa bb") [], 2 ≤ lw.length
          → (fun _ => (0 : ℤ)) (joinWords lw) ≤ 0)
      ∧ (∀ w ∈ pySplit "aa bb", (0 : ℤ) < (fun _ => (0 : ℤ)) w
          → [w] ∈ FactionGen.wrap_left_go (fun _ => 0) 0 (pySplit "aa bb") [])
      ∧ (FactionGen.wrap_left_go (fun _ => 0) 0 (pySplit "aa bb") []).flatten = pySplit "aa bb"
      ∧ FactionGen.draw_center_wrapped_lines (fun _ => 0) 0 "aa bb"
          = (FactionGen.center_wrap_go (fun _ => 0) 0 (pySplit "aa bb") []).map joinWords
      ∧ (∀ lw ∈ FactionGen.center_wrap_go (fun _ => 0) 0 (pySplit "aa bb") [], 2 ≤ lw.length
          → (fun _ => (0 : ℤ)) (joinWords lw) ≤ 0)
      ∧ (∀ w ∈ pySplit "aa bb", (0 : ℤ) < (fun _ => (0 : ℤ)) w
          → [w] ∈ FactionGen.center_wrap_go (fun _ => 0) 0 (pySplit "aa bb") [])
      ∧ (FactionGen.center_wrap_go (fun _ => 0) 0 (pySplit "aa bb") []).flatten
          = pySplit "aa bb") :=
  ⟨⟨fun _ _ => le_refl 0, fun _ _ => le_refl 0⟩,
    wrap_left_spec (fun _ => 0) 0 "aa bb" (fun _ _ => le_refl 0) (fun _ _ => le_refl 0)⟩

/-- When every candidate path is missing or fails to decode, the fallback
loop of locate_art returns none. -/
theorem first_openable_none (fs : FS) :
    ∀ l, (∀ p ∈ l, fs.isfile p = false ∨ fs.openImg p = none)
      → ReleaseGen.first_openable fs l = none := by
  intro l
  induction l with
  | nil => intro _; rfl
  | cons p ps ih =>
    intro h
    have hrec := ih (fun q hq => h q (List.mem_cons_of_mem _ hq))
    rcases h p (List.mem_cons_self p ps) with hp | hp
    · simp [ReleaseGen.first_openable, hp, hrec]
    · cases hfb : fs.isfile p with
      | false => simp [ReleaseGen.first_openable, hfb, hrec]
      | true => simp [ReleaseGen.first_openable, hfb, hp, hrec]

/-- The centered stats row consists of text commands only: no artwork paste
ever appears in it. -/
theorem row_texts_go_no_paste (tl : ℕ → String → ℤ) (fsize : ℕ) (row_y spacing : ℤ) :
    ∀ texts x a b w h, Op.pasteArt a b w h ∉ row_texts_go tl fsize row_y spacing x texts := by
  intro texts
  induction texts with
  | nil =>
    intro x a b w h
    simp [row_texts_go]
  | cons t ts ih =>
    intro x a b w h
    simp only [row_texts_go, List.mem_cons, not_or]
    exact ⟨by simp, ih _ a b w h⟩

/-- C7: artwork absence is not an error.  When the primary conventional path
and every fallback candidate (the explicit Artwork field, the glob matches
by card ID, the glob matches by slugified name) is missing or fails to
decode, locate_art returns none in both generator variants; draw_card_art
still draws exactly the art bevel; and build_card still returns a complete
card of the full canvas size whose trace contains the art bevel and no
artwork paste at all — the art box is left showing the background, and no
branch of the embedded pipeline is partial. -/
theorem missing_art_spec (tl : ℕ → String → ℤ) (tb : ℕ → String → ℤ × ℤ) (fs : FS)
    (env_total : Option String) (row : RowT) (faction_key : String) (orb_img : Option Img)
    (faction_label : String) (special_no_cost : Bool) (row_index rowName : Option ℕ)
    (total_cards : Option ℤ)
    (hprim : fs.isfile (ReleaseGen.primary_path row) = false
      ∨ fs.openImg (ReleaseGen.primary_path row) = none)
    (hcand : ∀ p ∈ ReleaseGen.art_candidates fs row, fs.isfile p = false ∨ fs.openImg p = none)
    (hfg : fs.isfile (FactionGen.art_path row) = false
      ∨ fs.openImg (FactionGen.art_path row) = none) :
    ReleaseGen.locate_art fs row = none
    ∧ FactionGen.locate_art fs row = none
    ∧ (∀ r : Rect, FactionGen.draw_card_art fs r row = [Op.artBevel r])
    ∧ (ReleaseGen.build_card tl tb fs env_total row faction_key orb_img faction_label
        special_no_cost row_index rowName total_cards).size = (750, 1050)
    ∧ Op.artBevel ReleaseGen.compute_regions.art_rect
        ∈ (ReleaseGen.build_card tl tb fs env_total row faction_key orb_img faction_label
            special_no_cost row_index rowName total_cards).ops
    ∧ (∀ x y w h, Op.pasteArt x y w h
        ∉ (ReleaseGen.build_card tl tb fs env_total row faction_key orb_img faction_label
            special_no_cost row_index rowName total_cards).ops) := by
  have hfo : ReleaseGen.first_openable fs (ReleaseGen.art_candidates fs row) = none :=
    first_openable_none fs _ hcand
  have hloc : ReleaseGen.locate_art fs row = none := by
    rcases hprim with hp | hp
    · simp [ReleaseGen.locate_art, hp, hfo]
    · cases hfb : fs.isfile (ReleaseGen.primary_path row) with
      | false => simp [ReleaseGen.locate_art, hfb, hfo]
      | true => simp [ReleaseGen.locate_art, hfb, hp, hfo]
  have hlocf : FactionGen.locate_art fs row = none := by
    rcases hfg with hp | hp
    · simp [FactionGen.locate_art, hp]
    · cases hfb : fs.isfile (FactionGen.art_path row) with
      | false => simp [FactionGen.locate_art, hfb]
      | true => simp [FactionGen.locate_art, hfb, hp]
  refine ⟨hloc, hlocf, ?_, rfl, ?_, ?_⟩
  · intro r
    simp [FactionGen.draw_card_art, hlocf]
  · simp [ReleaseGen.build_card, ReleaseGen.art_ops, hloc]
  · intro x y w h hmem
    simp only [ReleaseGen.build_card, List.mem_append] at hmem
    rcases hmem with ((((((((((hm | hm) | hm) | hm) | hm) | hm) | hm) | hm) | hm) | hm) | hm)
    · simp [ReleaseGen.background_ops] at hm
    · simp [ReleaseGen.frame_ops] at hm
    · simp [ReleaseGen.plaques_ops] at hm
    · simp [ReleaseGen.art_ops, hloc] at hm
    · simp [ReleaseGen.header_ops] at hm
    · simp only [ReleaseGen.cost_ops] at hm
      rcases hsp : special_no_cost with _ | _
      · rw [hsp] at hm
        simp only [Bool.false_eq_true, if_false] at hm
        simp only [ReleaseGen.place_orb_number_ops, List.mem_append] at hm
        rcases hm with hm | hm
        · cases orb_img <;> simp at hm
        · by_cases hc : pyTrim (ReleaseGen.parse_cost_number
              (match row.lookup "Resource Cost" with
                | some v => v
                | none => row_get row "Cost" "")) ≠ ""
          · rw [if_pos hc] at hm
            cases orb_img <;> simp at hm
          · rw [if_neg hc] at hm
            simp at hm
      · rw [hsp] at hm
        simp at hm
    · simp [ReleaseGen.type_ops] at hm
    · simp [ReleaseGen.badge_ops] at hm
    · simp only [ReleaseGen.stats_ops, centered_row_ops] at hm
      exact row_texts_go_no_paste tl 24 _ 10 _ _ x y w h hm
    · simp [ReleaseGen.draw_footer] at hm
    · simp [ReleaseGen.rules_ops] at hm

/-- C7 witness: the missing-art specification applied to a file system in
which no path exists, constant measurement oracles and an empty row. -/
theorem missing_art_spec_witness :
    (((FS.mk (fun _ => false) (fun _ => none) (fun _ => [])).isfile
          (ReleaseGen.primary_path []) = false
        ∨ (FS.mk (fun _ => false) (fun _ => none) (fun _ => [])).openImg
            (ReleaseGen.primary_path []) = none)
      ∧ (∀ p ∈ ReleaseGen.art_candidates
            (FS.mk (fun _ => false) (fun _ => none) (fun _ => [])) [],
          (FS.mk (fun _ => false) (fun _ => none) (fun _ => [])).isfile p = false
          ∨ (FS.mk (fun _ => false) (fun _ => none) (fun _ => [])).openImg p = none)
      ∧ ((FS.mk (fun _ => false) (fun _ => none) (fun _ => [])).isfile
            (FactionGen.art_path []) = false
        ∨ (FS.mk (fun _ => false) (fun _ => none) (fun _ => [])).openImg
            (FactionGen.art_path []) = none))
    ∧ (ReleaseGen.locate_art (FS.mk (fun _ => false) (fun _ => none) (fun _ => [])) [] = none
      ∧ FactionGen.locate_art (FS.mk (fun _ => false) (fun _ => none) (fun _ => [])) [] = none
      ∧ (∀ r : Rect, FactionGen.draw_card_art
          (FS.mk (fun _ => false) (fun _ => none) (fun _ => [])) r [] = [Op.artBevel r])
      ∧ (ReleaseGen.build_card (fun _ _ => 0) (fun _ _ => (0, 0))
          (FS.mk (fun _ => false) (fun _ => none) (fun _ => [])) none [] "survivor" none ""
          false none none none).size = (750, 1050)
      ∧ Op.artBevel ReleaseGen.compute_regions.art_rect
          ∈ (ReleaseGen.build_card (fun _ _ => 0) (fun _ _ => (0, 0))
              (FS.mk (fun _ => false) (fun _ => none) (fun _ => [])) none [] "survivor" none ""
              false none none none).ops
      ∧ (∀ x y w h, Op.pasteArt x y w h
          ∉ (ReleaseGen.build_card (fun _ _ => 0) (fun _ _ => (0, 0))
              (FS.mk (fun _ => false) (fun _ => none) (fun _ => [])) none [] "survivor" none ""
              false none none none).ops)) :=
  ⟨⟨Or.inl rfl, fun p _ => Or.inl rfl, Or.inl rfl⟩,
    missing_art_spec (fun _ _ => 0) (fun _ _ => (0, 0))
      (FS.mk (fun _ => false) (fun _ => none) (fun _ => [])) none [] "survivor" none ""
      false none none none (Or.inl rfl) (fun p _ => Or.inl rfl) (Or.inl rfl)⟩

/-- C8: unparsable numeric stat fields never abort a card.  In the
source/generators variant, when the sanitized Power and Toughness cells both
fail int() parsing, draw_card_stats draws the documented fallback numerals
0 and 0 ("POW: 0", "DEF: 0") in its centered row.  In the release variant,
when the Stats cell fails the HP/ATK/DEF comprehension, the values fall back
to (10, 2, 1), the drawn texts are "HP: 10", "ATK: 2", "DEF: 1", that
centered stats row still appears inside the full build_card trace, and the
card is still produced at the full canvas size — the render completes
instead of raising. -/
theorem stats_fallback_spec (tl : ℕ → String → ℤ) (tb : ℕ → String → ℤ × ℤ) (fs : FS)
    (env_total : Option String) (row : RowT) (faction_key : String) (orb_img : Option Img)
    (faction_label : String) (special_no_cost : Bool) (row_index rowName : Option ℕ)
    (total_cards : Option ℤ) (stats_rect : Rect)
    (hP : pyInt (sanitize (some (row_get row FactionGen.COL_POWER "2"))) = none)
    (hT : pyInt (sanitize (some (row_get row FactionGen.COL_TOUGHNESS "1"))) = none)
    (hS : ReleaseGen.stats_kvs row = none) :
    FactionGen.draw_card_stats tl stats_rect row
        = centered_row_ops tl 24 stats_rect 20 ["POW: 0", "DEF: 0"]
    ∧ ReleaseGen.release_stats_vals row = (10, 2, 1)
    ∧ ReleaseGen.release_stats_texts row = ["HP: 10", "ATK: 2", "DEF: 1"]
    ∧ ReleaseGen.stats_ops tl ReleaseGen.compute_regions row
        = centered_row_ops tl 24 ReleaseGen.compute_regions.stats_rect 10
            ["HP: 10", "ATK: 2", "DEF: 1"]
    ∧ (∃ s t, s ++ ReleaseGen.stats_ops tl ReleaseGen.compute_regions row ++ t
        = (ReleaseGen.build_card tl tb fs env_total row faction_key orb_img faction_label
            special_no_cost row_index rowName total_cards).ops)
    ∧ (ReleaseGen.build_card tl tb fs env_total row faction_key orb_img faction_label
        special_no_cost row_index rowName total_cards).size = (750, 1050) := by
  have hs0 : ["POW: " ++ toString (0 : ℤ), "DEF: " ++ toString (0 : ℤ)]
      = ["POW: 0", "DEF: 0"] := by decide
  have hv : ReleaseGen.release_stats_vals row = (10, 2, 1) := by
    simp [ReleaseGen.release_stats_vals, hS]
  have hst : ReleaseGen.release_stats_texts row = ["HP: 10", "ATK: 2", "DEF: 1"] := by
    have hs1 : ["HP: " ++ toString ((10 : ℤ), (2 : ℤ), (1 : ℤ)).1,
        "ATK: " ++ toString ((10 : ℤ), (2 : ℤ), (1 : ℤ)).2.1,
        "DEF: " ++ toString ((10 : ℤ), (2 : ℤ), (1 : ℤ)).2.2]
        = ["HP: 10", "ATK: 2", "DEF: 1"] := by decide
    rw [ReleaseGen.release_stats_texts, hv]
    exact hs1
  refine ⟨?_, hv, hst, ?_, ?_, rfl⟩
  · simp only [FactionGen.draw_card_stats, hP, hT, Option.getD_none]
    rw [hs0]
  · rw [ReleaseGen.stats_ops, hst]
  · refine ⟨ReleaseGen.background_ops ++ ReleaseGen.frame_ops faction_key
      ++ ReleaseGen.plaques_ops ReleaseGen.compute_regions
      ++ ReleaseGen.art_ops fs ReleaseGen.compute_regions row
      ++ ReleaseGen.header_ops tb ReleaseGen.compute_regions row
      ++ ReleaseGen.cost_ops tl tb ReleaseGen.compute_regions row orb_img special_no_cost
      ++ ReleaseGen.type_ops tb ReleaseGen.compute_regions row
      ++ ReleaseGen.badge_ops faction_key faction_label,
      ReleaseGen.draw_footer tb ReleaseGen.compute_regions.foot_rect row
        (row_index.getD (rowName.getD 0))
        (some (match total_cards with
          | some t => t
          | none => (pyInt (env_total.getD "1")).getD 1))
      ++ ReleaseGen.rules_ops row, ?_⟩
    simp [ReleaseGen.build_card, List.append_assoc]

/-- C8 witness: the stats fallback specification applied to a concrete row
whose Power, Toughness and Stats cells all fail to parse. -/
theorem stats_fallback_spec_witness :
    (pyInt (sanitize (some (row_get [("Power", "x"), ("Toughness", "y"), ("Stats", "n/a")]
          FactionGen.COL_POWER "2"))) = none
      ∧ pyInt (sanitize (some (row_get [("Power", "x"), ("Toughness", "y"), ("Stats", "n/a")]
          FactionGen.COL_TOUGHNESS "1"))) = none
      ∧ ReleaseGen.stats_kvs [("Power", "x"), ("Toughness", "y"), ("Stats", "n/a")] = none)
    ∧ (FactionGen.draw_card_stats (fun _ _ => 0) ⟨195, 909, 555, 949⟩
          [("Power", "x"), ("Toughness", "y"), ("Stats", "n/a")]
        = centered_row_ops (fun _ _ => 0) 24 ⟨195, 909, 555, 949⟩ 20 ["POW: 0", "DEF: 0"]
      ∧ ReleaseGen.release_stats_vals [("Power", "x"), ("Toughness", "y"), ("Stats", "n/a")]
          = (10, 2, 1)
      ∧ ReleaseGen.release_stats_texts [("Power", "x"), ("Toughness", "y"), ("Stats", "n/a")]
          = ["HP: 10", "ATK: 2", "DEF: 1"]
      ∧ ReleaseGen.stats_ops (fun _ _ => 0) ReleaseGen.compute_regions
            [("Power", "x"), ("Toughness", "y"), ("Stats", "n/a")]
          = centered_row_ops (fun _ _ => 0) 24 ReleaseGen.compute_regions.stats_rect 10
              ["HP: 10", "ATK: 2", "DEF: 1"]
      ∧ (∃ s t, s ++ ReleaseGen.stats_ops (fun _ _ => 0) ReleaseGen.compute_regions
            [("Power", "x"), ("Toughness", "y"), ("Stats", "n/a")] ++ t
          = (ReleaseGen.build_card (fun _ _ => 0) (fun _ _ => (0, 0))
            (FS.mk (fun _ => false) (fun _ => none) (fun _ => [])) none
            [("Power", "x"), ("Toughness", "y"), ("Stats", "n/a")] "stag" none "" false
            none none none).ops)
      ∧ (ReleaseGen.build_card (fun _ _ => 0) (fun _ _ => (0, 0))
          (FS.mk (fun _ => false) (fun _ => none) (fun _ => [])) none
          [("Power", "x"), ("Toughness", "y"), ("Stats", "n/a")] "stag" none "" false
          none none none).size = (750, 1050)) :=
  ⟨⟨by decide, by decide, by decide⟩,
    stats_fallback_spec (fun _ _ => 0) (fun _ _ => (0, 0))
      (FS.mk (fun _ => false) (fun _ => none) (fun _ => [])) none
      [("Power", "x"), ("Toughness", "y"), ("Stats", "n/a")] "stag" none "" false
      none none none ⟨195, 909, 555, 949⟩ (by decide) (by decide) (by decide)⟩
